import Mathlib

/-!
Verification development for the conversation-orchestration core of a
tool-using conversational agent (packages/core/src/core/client.ts).

The TypeScript source is shallowly embedded: JavaScript numbers used for
token/char accounting are modelled as `Nat`/`Int`/`ℚ` (the `0.95`, `0.7`,
`0.3` literals are exact in `ℚ`), `JSON.stringify` is modelled by an
executable serializer over the embedded `Content` data model, stateful
methods of the `GeminiClient` class become explicit state-passing
functions, and the external collaborators (router, loop detector, turn
executor, next-speaker classifier, summarizer) become oracle inputs.
-/

namespace GeminiClient

/-- Escape of a single character inside a JSON string literal, following
the JSON.stringify escaping rules (quote, backslash, control chars). -/
def jsonEscapeChar (c : Char) : String :=
  if c = '"' then "\\\""
  else if c = '\\' then "\\\\"
  else if c = '\n' then "\\n"
  else if c = '\r' then "\\r"
  else if c = '\t' then "\\t"
  else if c.toNat = 8 then "\\b"
  else if c.toNat = 12 then "\\f"
  else if c.toNat < 32 then "\\u0000"
  else String.singleton c

/-- JSON string literal for `s`, as produced by JSON.stringify. -/
def jsonQuote (s : String) : String :=
  "\"" ++ String.join (s.data.map jsonEscapeChar) ++ "\""

/-- Comma-separated join, as inside a JSON array or object. -/
def jsonCommaJoin : List String → String
  | [] => ""
  | [s] => s
  | s :: rest => s ++ "," ++ jsonCommaJoin rest

/-- JSON array literal from already-serialized element strings. -/
def jsonArray (elems : List String) : String :=
  "[" ++ jsonCommaJoin elems ++ "]"

/-- One part of a content entry (genai `Part`): in the paths exercised by
client.ts a part is a text part, a function call, or a function response;
the code only inspects presence of the `functionCall` / `functionResponse`
fields. The payload string stands for the serialized field value. -/
inductive Part where
  | text (s : String)
  | functionCall (name : String)
  | functionResponse (name : String)
deriving DecidableEq, Repr

/-- Truthiness of `part.functionResponse` / `'functionResponse' in part`. -/
def Part.isFunctionResponse : Part → Bool
  | .functionResponse _ => true
  | _ => false

/-- Truthiness of `part.functionCall` / `'functionCall' in part`. -/
def Part.isFunctionCall : Part → Bool
  | .functionCall _ => true
  | _ => false

/-- JSON.stringify of a single part. -/
def Part.toJsonString : Part → String
  | .text s => "\x7b" ++ jsonQuote "text" ++ ":" ++ jsonQuote s ++ "\x7d"
  | .functionCall name =>
      "\x7b" ++ jsonQuote "functionCall" ++ ":" ++ "\x7b" ++ jsonQuote "name" ++ ":"
        ++ jsonQuote name ++ "\x7d" ++ "\x7d"
  | .functionResponse name =>
      "\x7b" ++ jsonQuote "functionResponse" ++ ":" ++ "\x7b" ++ jsonQuote "name" ++ ":"
        ++ jsonQuote name ++ "\x7d" ++ "\x7d"

/-- One history entry (genai `Content`): a role string and an optional
list of parts (`parts?` is optional in the genai type, and client.ts
guards accesses with `content.parts?.`). -/
structure Content where
  role : String
  parts : Option (List Part)
deriving DecidableEq, Repr

instance : Inhabited Content := ⟨⟨"", none⟩⟩

/-- JSON.stringify of a content entry; an absent `parts` field is omitted,
exactly as JSON.stringify drops `undefined` fields. -/
def Content.toJsonString (c : Content) : String :=
  match c.parts with
  | none => "\x7b" ++ jsonQuote "role" ++ ":" ++ jsonQuote c.role ++ "\x7d"
  | some ps =>
      "\x7b" ++ jsonQuote "role" ++ ":" ++ jsonQuote c.role ++ ","
        ++ jsonQuote "parts" ++ ":" ++ jsonArray (ps.map Part.toJsonString) ++ "\x7d"

/-- Per-entry size weight: `JSON.stringify(content).length`. -/
def Content.jsonLength (c : Content) : Nat :=
  c.toJsonString.length

/-- Truthiness of `content.parts?.some((part) => !!part.functionResponse)`. -/
def Content.hasFunctionResponse (c : Content) : Bool :=
  (c.parts.getD []).any Part.isFunctionResponse

/-- Truthiness of `content.parts?.some((part) => part.functionCall)`. -/
def Content.hasFunctionCall (c : Content) : Bool :=
  (c.parts.getD []).any Part.isFunctionCall

/-- The valid-split-candidate test of findCompressSplitPoint:
`content.role === 'user' && !content.parts?.some((part) => !!part.functionResponse)`. -/
def isValidSplit (c : Content) : Bool :=
  c.role == "user" && !c.hasFunctionResponse

/-- The comparison `cumulativeCharCount >= totalCharCount * fraction`
(line 93), phrased over ℤ by cross-multiplying with the (positive)
denominator of `fraction` so that it is kernel-executable; the theorem
targetReached_iff below states the equivalence with the ℚ inequality. -/
def targetReached (totalCharCount : Nat) (fraction : ℚ) (cumulativeCharCount : Nat) : Bool :=
  decide ((totalCharCount : Int) * fraction.num
    ≤ (cumulativeCharCount : Int) * (fraction.den : Int))

/-- The scanning loop of findCompressSplitPoint (lines 85-99): walks the
entries carrying the running index `i`, the cumulative weight of the
entries already passed, and the last valid split point seen; `targetHit`
is the weight-threshold test applied to the cumulative weight. `Sum.inl i`
is the loop's early `return i`; `Sum.inr lastSplitPoint` means the loop
ran to completion. -/
def splitScan (targetHit : Nat → Bool) : List Content → Nat → Nat → Nat → Nat ⊕ Nat
  | [], _, _, lastSplitPoint => Sum.inr lastSplitPoint
  | c :: rest, i, cumulativeCharCount, lastSplitPoint =>
    if isValidSplit c then
      if targetHit cumulativeCharCount then Sum.inl i
      else splitScan targetHit rest (i + 1) (cumulativeCharCount + c.jsonLength) i
    else splitScan targetHit rest (i + 1) (cumulativeCharCount + c.jsonLength) lastSplitPoint

/-- Body of findCompressSplitPoint after the fraction guard (lines 81-112):
weights, target, scan, and the two fallbacks when the scan completes. -/
def findCompressSplitPointCore (contents : List Content) (fraction : ℚ) : Nat :=
  match splitScan (targetReached ((contents.map Content.jsonLength).sum) fraction)
      contents 0 0 0 with
  | Sum.inl i => i
  | Sum.inr lastSplitPoint =>
    match contents.getLast? with
    | some lastContent =>
        if lastContent.role == "model" && !lastContent.hasFunctionCall then
          contents.length
        else lastSplitPoint
    | none => lastSplitPoint

/-- findCompressSplitPoint (lines 73-113): throws when the fraction is
outside the open interval (0, 1), otherwise runs the core scan. -/
def findCompressSplitPoint (contents : List Content) (fraction : ℚ) : Except String Nat :=
  if fraction ≤ 0 ∨ 1 ≤ fraction then
    Except.error "Fraction must be between 0 and 1"
  else
    Except.ok (findCompressSplitPointCore contents fraction)

/-- Summed weight of the entries strictly before index `i`. -/
def prefixWeight (contents : List Content) (i : Nat) : Nat :=
  ((contents.take i).map Content.jsonLength).sum

/-- The target weight: fraction of the total serialized weight. -/
def splitTarget (contents : List Content) (fraction : ℚ) : ℚ :=
  (((contents.map Content.jsonLength).sum : Nat) : ℚ) * fraction

/-- First index `i` in `[start, start+fuel)` satisfying `p`, scanning in
increasing order. -/
def firstIdxFrom (p : Nat → Bool) : Nat → Nat → Option Nat
  | 0, _ => none
  | fuel + 1, start => if p start then some start else firstIdxFrom p fuel (start + 1)

/-- Last index `i < n` satisfying `p`, defaulting to 0 when none does:
the "most recent valid candidate index seen" of the specification. -/
def lastIdxSatisfying (p : Nat → Bool) (n : Nat) : Nat :=
  (List.range n).foldl (fun acc i => if p i then i else acc) 0

/-- Specification-side split point, following the specification's words:
return the first index whose entry is user-role with no function-response
part and whose preceding cumulative weight reaches the target; if none
exists, return the full length when the final entry is model-authored
with no function-call part, and otherwise the last valid candidate index
seen (0 if none was seen). -/
def findCompressSplitPointSpec (contents : List Content) (fraction : ℚ) : Nat :=
  match firstIdxFrom
      (fun i => isValidSplit (contents.getD i default)
        && decide (splitTarget contents fraction ≤ (prefixWeight contents i : ℚ)))
      contents.length 0 with
  | some i => i
  | none =>
    if (match contents.getLast? with
        | some lastContent => lastContent.role == "model" && !lastContent.hasFunctionCall
        | none => false) then
      contents.length
    else
      lastIdxSatisfying (fun i => isValidSplit (contents.getD i default)) contents.length

/-- First position (relative to the start of `l`) at which the scanning
loop would early-return, given that the cumulative weight before `l` is
`cum`: the first entry that is a valid split candidate and whose preceding
cumulative weight already reaches the target. -/
def firstHit (targetHit : Nat → Bool) : List Content → Nat → Option Nat
  | [], _ => none
  | c :: rest, cum =>
    if isValidSplit c = true ∧ targetHit cum = true then some 0
    else (firstHit targetHit rest (cum + c.jsonLength)).map (· + 1)

/-- Position of the last valid split candidate within `l`, if any. -/
def lastValidIn : List Content → Option Nat
  | [] => none
  | c :: rest =>
    match lastValidIn rest with
    | some k => some (k + 1)
    | none => if isValidSplit c then some 0 else none

/-- Cursor position inside the active editor file. -/
structure IdeCursor where
  line : Nat
  character : Nat
deriving DecidableEq, Repr

/-- One open editor file (ide `File`). -/
structure IdeFile where
  path : String
  isActive : Bool
  cursor : Option IdeCursor
  selectedText : Option String
deriving DecidableEq, Repr

/-- Editor context snapshot; `openFiles` mirrors
`ideContext.workspaceState?.openFiles` (absent workspace state or absent
list both behave as the empty list via `|| []`). -/
structure IdeContext where
  openFiles : Option (List IdeFile)
deriving DecidableEq, Repr

/-- Active-file record placed in the context payload: path, optional
cursor, and selected text where the empty string is coerced to absence
(`selectedText || undefined`). -/
structure ActiveFileInfo where
  path : String
  cursor : Option IdeCursor
  selectedText : Option String
deriving DecidableEq, Repr

/-- The `activeFileChanged` entry of a delta: either a new active file
(with its cursor/selection) or a transition to no active file (recording
the previous path). -/
inductive ActiveFileChangeInfo where
  | changedTo (info : ActiveFileInfo)
  | cleared (previousPath : String)
deriving DecidableEq, Repr

/-- The `changes` object assembled in delta mode; absent JSON fields are
the empty list / `none`. -/
structure DeltaChanges where
  filesOpened : List String
  filesClosed : List String
  activeFileChanged : Option ActiveFileChangeInfo
  cursorMoved : Option (String × IdeCursor)
  selectionChanged : Option (String × String)
deriving DecidableEq, Repr

/-- Truthiness of `Object.keys(changes).length === 0`. -/
def DeltaChanges.isEmpty (d : DeltaChanges) : Bool :=
  d.filesOpened.isEmpty && d.filesClosed.isEmpty && d.activeFileChanged.isNone
    && d.cursorMoved.isNone && d.selectionChanged.isNone

/-- Structured form of the context payload serialized into `contextParts`:
either the full context or a delta of changes. -/
inductive IdePayload where
  | fullContext (activeFile : Option ActiveFileInfo) (otherOpenFiles : List String)
  | delta (changes : DeltaChanges)
deriving DecidableEq, Repr

/-- Coercion `s || undefined` applied to an optional string. -/
def strOrNone : Option String → Option String
  | some s => if s.isEmpty then none else some s
  | none => none

/-- Active-file record built in both full and delta mode. -/
def activeFileInfoOf (f : IdeFile) : ActiveFileInfo :=
  ⟨f.path, f.cursor, strOrNone f.selectedText⟩

/-- Paths of `ctx`, keyed as in `new Map(openFiles.map(f => [f.path, f]))`:
one entry per distinct path, in first-occurrence order. -/
def idePaths (ctx : IdeContext) : List String :=
  ((ctx.openFiles.getD []).map IdeFile.path).eraseDups

/-- The `changes` record computed in delta mode (lines 364-451). -/
def deltaChangesOf (cur last : IdeContext) : DeltaChanges :=
  let openedFiles := (idePaths cur).filter (fun p => !(idePaths last).contains p)
  let closedFiles := (idePaths last).filter (fun p => !(idePaths cur).contains p)
  let lastActiveFile := (last.openFiles.getD []).find? IdeFile.isActive
  let currentActiveFile := (cur.openFiles.getD []).find? IdeFile.isActive
  let base : DeltaChanges := ⟨openedFiles, closedFiles, none, none, none⟩
  match currentActiveFile with
  | some caf =>
    match lastActiveFile with
    | none => { base with activeFileChanged := some (.changedTo (activeFileInfoOf caf)) }
    | some laf =>
      if laf.path ≠ caf.path then
        { base with activeFileChanged := some (.changedTo (activeFileInfoOf caf)) }
      else
        let cursorMoved :=
          match caf.cursor with
          | some currentCursor =>
            match laf.cursor with
            | none => some (caf.path, currentCursor)
            | some lastCursor =>
              if lastCursor.line ≠ currentCursor.line
                  ∨ lastCursor.character ≠ currentCursor.character then
                some (caf.path, currentCursor)
              else none
          | none => none
        let selectionChanged :=
          if laf.selectedText.getD "" ≠ caf.selectedText.getD "" then
            some (caf.path, caf.selectedText.getD "")
          else none
        { base with cursorMoved := cursorMoved, selectionChanged := selectionChanged }
  | none =>
    match lastActiveFile with
    | some laf => { base with activeFileChanged := some (.cleared laf.path) }
    | none => base

/-- getIdeContextParts (lines 308-474). The store read
(`ideContextStore.get()`) is the first argument; the result pairs the
structured payload (none when `contextParts` is empty) with the
`newIdeContext` value to record as last sent. -/
def getIdeContextParts (currentIdeContext : Option IdeContext)
    (lastSentIdeContext : Option IdeContext) (forceFullContext : Bool) :
    Option IdePayload × Option IdeContext :=
  match currentIdeContext with
  | none => (none, none)
  | some cur =>
    if forceFullContext || lastSentIdeContext.isNone then
      let openFiles := cur.openFiles.getD []
      let activeFile := openFiles.find? IdeFile.isActive
      let otherOpenFiles := (openFiles.filter (fun f => !f.isActive)).map IdeFile.path
      if activeFile.isNone && otherOpenFiles.isEmpty then
        (none, some cur)
      else
        (some (.fullContext (activeFile.map activeFileInfoOf) otherOpenFiles), some cur)
    else
      match lastSentIdeContext with
      | some last =>
        let changes := deltaChangesOf cur last
        if changes.isEmpty then (none, some cur)
        else (some (.delta changes), some cur)
      | none => (none, some cur)

/-- Rendering of the payload into the text of the synthetic user entry
(`contextParts.join('\n')`); the exact JSON layout (2-space pretty
printing) is abstracted, which no claim depends on. -/
def renderIdePayload : IdePayload → String
  | .fullContext _ _ =>
      "Here is the user\x27s editor context as a JSON object. This is for your information only.\n```json\n...\n```"
  | .delta _ =>
      "Here is a summary of changes in the user\x27s editor context, in JSON format. This is for your information only.\n```json\n...\n```"

/-- Sentinel model name resolved before routing. Modelled from the spec:
the concrete identifier strings come from config/models.js, which is
outside the embedded sources; only their identity/distinctness matters. -/
def DEFAULT_GEMINI_MODEL_AUTO : String := "auto"

/-- Default concrete model. Modelled from the spec (see
DEFAULT_GEMINI_MODEL_AUTO). -/
def DEFAULT_GEMINI_MODEL : String := "default-gemini-model"

/-- Fallback (flash) model. Modelled from the spec (see
DEFAULT_GEMINI_MODEL_AUTO). -/
def DEFAULT_GEMINI_FLASH_MODEL : String := "default-gemini-flash-model"

/-- Modelled from the spec: getEffectiveModel (config/models.js, outside
the embedded sources) substitutes the fallback model identifier while the
session is in fallback mode and otherwise keeps the requested model. -/
def getEffectiveModel (inFallbackMode : Bool) (model : String) : String :=
  if inFallbackMode then DEFAULT_GEMINI_FLASH_MODEL else model

/-- The live chat. GeminiChat itself lives outside the embedded sources;
the part used by client.ts is its full history (`getHistory()`); the
curated view (`getHistory(true)`) is obtained through the environment's
abstract curation function. -/
structure Chat where
  history : List Content
deriving DecidableEq, Repr

/-- CompressionStatus (turn.ts). -/
inductive CompressionStatus where
  | noop
  | compressed
  | compressionFailedInflatedTokenCount
deriving DecidableEq, Repr

/-- ChatCompressionInfo. -/
structure ChatCompressionInfo where
  originalTokenCount : Nat
  newTokenCount : Nat
  compressionStatus : CompressionStatus
deriving DecidableEq, Repr

/-- Session-scoped mutable state of the GeminiClient instance, plus the
externally tracked last prompt token count (uiTelemetryService) and three
ghost instrumentation counters (router invocations, turn.run model calls,
invalid-stream retries) that never influence control flow. -/
structure SessionState where
  chat : Chat
  sessionTurnCount : Nat
  lastPromptId : String
  currentSequenceModel : Option String
  lastSentIdeContext : Option IdeContext
  forceFullIdeContext : Bool
  lastKnownChatUserMemory : Option String
  hasFailedCompressionAttempt : Bool
  lastPromptTokenCount : Nat
  routerCallCount : Nat
  modelCallCount : Nat
  invalidRetryCount : Nat
deriving DecidableEq, Repr

/-- Host configuration and external collaborator functions that are read
but never mutated during a call chain. -/
structure Env where
  maxSessionTurns : Int
  ideMode : Bool
  ideContext : Option IdeContext
  continueOnFailedApiCall : Bool
  quotaErrorOccurred : Bool
  skipNextSpeakerCheck : Bool
  signalAborted : Bool
  configModel : String
  inFallbackMode : Bool
  tokenLimitOf : String → Nat
  chatCompressionThreshold : Option ℚ
  curate : List Content → List Content
  userMemory : String
  envContextString : String
  summaryFor : List Content → String

/-- _getEffectiveModelForCurrentTurn (lines 476-487). -/
def effectiveModelForCurrentTurn (env : Env) (st : SessionState) : String :=
  match st.currentSequenceModel with
  | some m => m
  | none =>
    getEffectiveModel env.inFallbackMode
      (if env.configModel == DEFAULT_GEMINI_MODEL_AUTO then DEFAULT_GEMINI_MODEL
       else env.configModel)

/-- The static handshake text appended to the environment context in
startChat (lines 256-262, after `.trim()`). -/
def startChatSetupText (env : Env) : String :=
  env.envContextString
    ++ "\n\nReminder: Do not return an empty response when a tool call is required.\n\nMy setup is complete. I will provide my first command in the next turn."

/-- startChat (lines 239-306): builds a fresh chat whose history is the
setup turn followed by `extraHistory`, and as side effects resets
forceFullIdeContext, clears hasFailedCompressionAttempt and records the
current user memory. -/
def startChat (env : Env) (st : SessionState) (extraHistory : List Content) :
    Chat × SessionState :=
  (⟨⟨"user", some [Part.text (startChatSetupText env)]⟩ :: extraHistory⟩,
   { st with
      forceFullIdeContext := true
      hasFailedCompressionAttempt := false
      lastKnownChatUserMemory := some env.userMemory })

/-- COMPRESSION_TOKEN_THRESHOLD (line 121): the literal 0.7, written as
its exact value 7/10 via mkRat so that it is kernel-executable (the
theorem COMPRESSION_TOKEN_THRESHOLD_eq checks it equals 0.7). -/
def COMPRESSION_TOKEN_THRESHOLD : ℚ := mkRat 7 10

/-- COMPRESSION_PRESERVE_THRESHOLD (line 127): the literal 0.3 as 3/10
(the theorem COMPRESSION_PRESERVE_THRESHOLD_eq checks it equals 0.3). -/
def COMPRESSION_PRESERVE_THRESHOLD : ℚ := mkRat 3 10

/-- The fraction `1 - COMPRESSION_PRESERVE_THRESHOLD` passed by
tryCompressChat to findCompressSplitPoint (line 800), written as its
exact value 7/10 (the theorem compressionSplitFraction_eq checks the
identity). -/
def compressionSplitFraction : ℚ := mkRat 7 10

/-- The comparison `originalTokenCount < threshold * tokenLimit(model)`
(line 789), phrased over ℤ by cross-multiplying with the denominator of
`threshold` so that it is kernel-executable; the theorem
belowThreshold_iff below states the equivalence with the ℚ inequality. -/
def belowThreshold (originalTokenCount : Nat) (threshold : ℚ) (limit : Nat) : Bool :=
  decide ((originalTokenCount : Int) * (threshold.den : Int) < threshold.num * (limit : Int))

/-- Token estimate over a history: 1 token per 4 characters of the
serialized entries (lines 852-857). -/
def estimateTokens (history : List Content) : Nat :=
  (history.map Content.jsonLength).sum / 4

/-- Curated history used by tryCompressChat (`getChat().getHistory(true)`). -/
def curatedHistoryOf (env : Env) (st : SessionState) : List Content :=
  env.curate st.chat.history

/-- Split point used by tryCompressChat (lines 798-801). -/
def compressionSplitPoint (env : Env) (st : SessionState) : Nat :=
  findCompressSplitPointCore (curatedHistoryOf env st) compressionSplitFraction

/-- The history of the rebuilt chat (lines 838-848): handshake turn,
synthetic user turn carrying the summary, synthetic model acknowledgement,
then the retained tail. -/
def rebuiltHistory (env : Env) (st : SessionState) : List Content :=
  ⟨"user", some [Part.text (startChatSetupText env)]⟩ ::
  ⟨"user", some [Part.text (env.summaryFor
      ((curatedHistoryOf env st).take (compressionSplitPoint env st)))]⟩ ::
  ⟨"model", some [Part.text "Got it. Thanks for the additional context!"]⟩ ::
  (curatedHistoryOf env st).drop (compressionSplitPoint env st)

/-- Token estimate of the rebuilt chat (lines 851-857). -/
def compressionNewTokenCount (env : Env) (st : SessionState) : Nat :=
  estimateTokens (rebuiltHistory env st)

/-- tryCompressChat (lines 757-885). The summarization call is the
environment's `summaryFor` oracle; `prompt_id` is only forwarded for
logging in the source and does not influence the result. -/
def tryCompressChat (env : Env) (st : SessionState) (prompt_id : String) (force : Bool) :
    ChatCompressionInfo × SessionState :=
  let curatedHistory := curatedHistoryOf env st
  if curatedHistory.isEmpty || (st.hasFailedCompressionAttempt && !force) then
    (⟨0, 0, .noop⟩, st)
  else
    let originalTokenCount := st.lastPromptTokenCount
    let threshold := env.chatCompressionThreshold.getD COMPRESSION_TOKEN_THRESHOLD
    if !force
        && belowThreshold originalTokenCount threshold
          (env.tokenLimitOf (effectiveModelForCurrentTurn env st)) then
      (⟨originalTokenCount, originalTokenCount, .noop⟩, st)
    else
      let splitPoint := compressionSplitPoint env st
      let historyToCompress := curatedHistory.take splitPoint
      if historyToCompress.isEmpty then
        (⟨originalTokenCount, originalTokenCount, .noop⟩, st)
      else
        let summary := env.summaryFor historyToCompress
        let startRes := startChat env st
          (⟨"user", some [Part.text summary]⟩ ::
           ⟨"model", some [Part.text "Got it. Thanks for the additional context!"]⟩ ::
           curatedHistory.drop splitPoint)
        let chat := startRes.1
        let st1 := { startRes.2 with forceFullIdeContext := true }
        let newTokenCount := estimateTokens chat.history
        if newTokenCount > originalTokenCount then
          (⟨originalTokenCount, newTokenCount, .compressionFailedInflatedTokenCount⟩,
           { st1 with hasFailedCompressionAttempt := !force })
        else
          (⟨originalTokenCount, newTokenCount, .compressed⟩,
           { st1 with chat := chat, lastPromptTokenCount := newTokenCount })

/-- Events produced by the external tool-execution unit (Turn.run) that
sendMessageStream inspects: invalid-stream anomalies, explicit errors,
and the pass-through rest. -/
inductive TEvent where
  | invalidStream
  | errorEvent
  | contentEvent
deriving DecidableEq, Repr

/-- Outcome of one turn.run call: its ordered event sequence and whether
pending tool calls remain once it is exhausted. -/
structure TurnRun where
  events : List TEvent
  pendingToolCalls : Bool
deriving DecidableEq, Repr

/-- Events yielded by sendMessageStream to its caller. -/
inductive SEvent where
  | maxSessionTurns
  | contextWindowWillOverflow (estimatedRequestTokenCount : Nat) (remainingTokenCount : Int)
  | chatCompressed (info : ChatCompressionInfo)
  | loopDetected
  | invalidStream
  | errorEvent
  | contentEvent
deriving DecidableEq, Repr

/-- Forwarding of a turn event to the caller (`yield event`). -/
def TEvent.toS : TEvent → SEvent
  | .invalidStream => .invalidStream
  | .errorEvent => .errorEvent
  | .contentEvent => .contentEvent

/-- Telemetry log records emitted by sendMessageStream. -/
inductive LogEvent where
  | contentRetryFailure (attempts : Nat) (model : String)
  | nextSpeakerCheck (prompt_id : String)
deriving DecidableEq, Repr

/-- Oracle answers of the external collaborators, consumed in call order;
an exhausted list answers with the benign default (no loop, no
continuation, empty run, a fixed routed model). -/
structure Oracle where
  turnStarted : List Bool
  addAndCheck : List Bool
  routes : List String
  runs : List TurnRun
  nextSpeaker : List Bool
deriving DecidableEq, Repr

/-- Pop the next oracle answer, with a default for an exhausted list. -/
def popD {α : Type} (l : List α) (d : α) : α × List α :=
  match l with
  | [] => (d, [])
  | a :: rest => (a, rest)

/-- The request argument (`PartListUnion`): a bare string or a list of
parts. -/
inductive Request where
  | str (s : String)
  | parts (ps : List Part)
deriving DecidableEq, Repr

/-- `JSON.stringify(request).length`. -/
def Request.jsonLength : Request → Nat
  | .str s => (jsonQuote s).length
  | .parts ps => (jsonArray (ps.map Part.toJsonString)).length

/-- `Math.floor(JSON.stringify(request).length / 4)` (lines 518-520). -/
def estimatedRequestTokens (request : Request) : Nat :=
  request.jsonLength / 4

/-- `tokenLimit(model) - lastPromptTokenCount` (lines 522-524). -/
def remainingTokens (env : Env) (st : SessionState) : Int :=
  (env.tokenLimitOf (effectiveModelForCurrentTurn env st) : Int)
    - (st.lastPromptTokenCount : Int)

/-- The comparison `estimatedRequestTokenCount > remainingTokenCount * 0.95`
(line 526), phrased over ℤ by cross-multiplying with 20 (0.95 is exactly
19/20) so that it is kernel-executable; the theorem overflowTriggered_iff
below states the equivalence with the ℚ inequality. -/
def overflowTriggered (estimatedRequestTokenCount : Nat) (remainingTokenCount : Int) : Bool :=
  decide ((estimatedRequestTokenCount : Int) * 20 > remainingTokenCount * 19)

/-- The context-window guard (lines 526-532): the overflow event to emit,
if the estimate exceeds 95% of the remaining budget. -/
def contextWindowCheck (env : Env) (st : SessionState) (request : Request) : Option SEvent :=
  if overflowTriggered (estimatedRequestTokens request) (remainingTokens env st) then
    some (.contextWindowWillOverflow (estimatedRequestTokens request) (remainingTokens env st))
  else none

/-- Sequence reset (lines 496-500): a new promptId resets the loop
detector scope and clears the sticky model. -/
def resetSequenceIfNeeded (st : SessionState) (prompt_id : String) : SessionState :=
  if st.lastPromptId ≠ prompt_id then
    { st with lastPromptId := prompt_id, currentSequenceModel := none }
  else st

/-- State after the entry steps of sendMessageStream (lines 496-501):
sequence reset followed by the session turn counter increment. -/
def entryState (st : SessionState) (prompt_id : String) : SessionState :=
  { resetSequenceIfNeeded st prompt_id with
      sessionTurnCount := (resetSequenceIfNeeded st prompt_id).sessionTurnCount + 1 }

/-- The session-turn budget check (lines 502-505), evaluated on the
already-incremented state. -/
def sessionCapHit (env : Env) (st : SessionState) : Bool :=
  decide (env.maxSessionTurns > 0)
    && decide ((st.sessionTurnCount : Int) > env.maxSessionTurns)

/-- Truthiness of `hasPendingToolCall` (lines 558-564): the last history
entry is model-authored and contains a function-call part. -/
def hasPendingToolCallIn (history : List Content) : Bool :=
  match history.getLast? with
  | some lastMessage => lastMessage.role == "model" && lastMessage.hasFunctionCall
  | none => false

/-- The pending-tool-call guard plus IDE context injection (lines
558-578): when IDE mode is on and no tool call is pending, compute the
context payload and append it as a synthetic user entry when non-empty,
then record the snapshot sent. -/
def contextInjection (env : Env) (st : SessionState) : SessionState :=
  let history := st.chat.history
  if env.ideMode && !hasPendingToolCallIn history then
    let r := getIdeContextParts env.ideContext st.lastSentIdeContext
      (st.forceFullIdeContext || history.isEmpty)
    let st1 :=
      match r.1 with
      | some payload =>
          { st with chat := Chat.mk (st.chat.history
              ++ [Content.mk "user" (some [Part.text (renderIdePayload payload)])]) }
      | none => st
    { st1 with lastSentIdeContext := r.2, forceFullIdeContext := false }
  else st

/-- The state-preparation phase of sendMessageStream between the context
window guard and the pre-call loop check (lines 534-578): non-forced
compression (with its informational event when it compacted), the
user-memory-driven system-instruction refresh, and the guarded IDE
context injection. Returns the updated state and the compression events
to emit. -/
def preparedState (env : Env) (st : SessionState) (prompt_id : String) :
    SessionState × List SEvent :=
  let comp := tryCompressChat env st prompt_id false
  let compressionEvents :=
    if comp.1.compressionStatus = CompressionStatus.compressed then
      [SEvent.chatCompressed comp.1]
    else []
  let st1 := comp.2
  let st2 :=
    if st1.lastKnownChatUserMemory ≠ some env.userMemory then
      { st1 with lastKnownChatUserMemory := some env.userMemory }
    else st1
  (contextInjection env st2, compressionEvents)

/-- Result of one sendMessageStream invocation: the flattened ordered
event stream, telemetry log records, the final session state and oracle
remainder, and whether the run completed within the recursion fuel. -/
structure StreamOut where
  events : List SEvent
  logs : List LogEvent
  st : SessionState
  orc : Oracle
  fuelOk : Bool
deriving DecidableEq, Repr

/-- Exit mode of the stream-consumption loop: an early `return turn`
inside the loop, or normal completion of the stream. -/
inductive LoopExit where
  | earlyReturn
  | finished
deriving DecidableEq, Repr

/-- Result of the stream-consumption loop. -/
structure LoopOut where
  events : List SEvent
  logs : List LogEvent
  st : SessionState
  orc : Oracle
  fuelOk : Bool
  exitKind : LoopExit
deriving DecidableEq, Repr

/-- The stream-consumption loop of sendMessageStream (lines 611-646):
each event is first fed to the loop detector, then yielded; an
invalid-stream event with continue-on-failure either recurses once (the
anomaly retry, marker set true) or — under the marker — logs the
attempt-count-4 failure and stops; an error event stops. `recur` is the
recursive sendMessageStream call at one less fuel, already fixed to the
current promptId. -/
def runEventLoop (recur : SessionState → Oracle → Request → Int → Bool → StreamOut)
    (env : Env) (modelToUse : String) (boundedTurns : Int) (isInvalidStreamRetry : Bool) :
    SessionState → Oracle → List TEvent → LoopOut
  | st, orc, [] => ⟨[], [], st, orc, true, .finished⟩
  | st, orc, e :: rest =>
    let pop := popD orc.addAndCheck false
    let orc1 := { orc with addAndCheck := pop.2 }
    if pop.1 then
      ⟨[.loopDetected], [], st, orc1, true, .earlyReturn⟩
    else
      match e with
      | .invalidStream =>
        if env.continueOnFailedApiCall then
          if isInvalidStreamRetry then
            ⟨[.invalidStream], [.contentRetryFailure 4 modelToUse], st, orc1, true, .earlyReturn⟩
          else
            let st1 := { st with invalidRetryCount := st.invalidRetryCount + 1 }
            let sub := recur st1 orc1 (.parts [Part.text "System: Please continue."])
              (boundedTurns - 1) true
            ⟨.invalidStream :: sub.events, sub.logs, sub.st, sub.orc, sub.fuelOk, .earlyReturn⟩
        else
          let r := runEventLoop recur env modelToUse boundedTurns isInvalidStreamRetry st orc1 rest
          { r with events := .invalidStream :: r.events }
      | .errorEvent => ⟨[.errorEvent], [], st, orc1, true, .earlyReturn⟩
      | .contentEvent =>
        let r := runEventLoop recur env modelToUse boundedTurns isInvalidStreamRetry st orc1 rest
        { r with events := .contentEvent :: r.events }

/-- MAX_TURNS (line 115). -/
def MAX_TURNS : Int := 100

/-- The clamp `Math.min(turns, MAX_TURNS)` (line 510), written with an
explicit comparison so that it is kernel-executable; the theorem
boundedTurnsOf_eq_min checks it is `min`. -/
def boundedTurnsOf (turns : Int) : Int :=
  if turns ≤ MAX_TURNS then turns else MAX_TURNS

instance : DecidableEq (Except String Nat) := fun a b =>
  match a, b with
  | .ok x, .ok y =>
    if h : x = y then .isTrue (by rw [h]) else .isFalse (fun hh => h (by injection hh))
  | .ok _, .error _ => .isFalse (fun hh => Except.noConfusion hh)
  | .error _, .ok _ => .isFalse (fun hh => Except.noConfusion hh)
  | .error e, .error f =>
    if h : e = f then .isTrue (by rw [h]) else .isFalse (fun hh => h (by injection hh))

/-- Model selection (lines 597-608): reuse the sticky model when the
sequence has one, otherwise request a routing decision and pin it
(instrumented by the ghost router counter). -/
def selectModel (st : SessionState) (orc : Oracle) : String × SessionState × Oracle :=
  match st.currentSequenceModel with
  | some m => (m, st, orc)
  | none =>
    let popR := popD orc.routes "default-routed-model"
    (popR.1,
     { st with
        currentSequenceModel := some popR.1
        routerCallCount := st.routerCallCount + 1 },
     { orc with routes := popR.2 })

/-- Stream consumption and continuation (lines 610-684): run the event
loop over the turn events; on early return propagate it, otherwise run
the next-speaker check and possibly recurse with the synthetic "Please
continue." message and one less turn. -/
def afterRun (recur : SessionState → Oracle → Request → Int → Bool → StreamOut)
    (env : Env) (compressionEvents : List SEvent) (prompt_id : String)
    (boundedTurns : Int) (isInvalidStreamRetry : Bool) (modelToUse : String)
    (run : TurnRun) (st : SessionState) (orc : Oracle) : StreamOut :=
  let lp := runEventLoop recur env modelToUse boundedTurns isInvalidStreamRetry
    st orc run.events
  match lp.exitKind with
  | .earlyReturn => ⟨compressionEvents ++ lp.events, lp.logs, lp.st, lp.orc, lp.fuelOk⟩
  | .finished =>
    if !run.pendingToolCalls && !env.signalAborted then
      if env.quotaErrorOccurred then
        ⟨compressionEvents ++ lp.events, lp.logs, lp.st, lp.orc, lp.fuelOk⟩
      else if env.skipNextSpeakerCheck then
        ⟨compressionEvents ++ lp.events, lp.logs, lp.st, lp.orc, lp.fuelOk⟩
      else
        let popNS := popD lp.orc.nextSpeaker false
        let orc2 := { lp.orc with nextSpeaker := popNS.2 }
        let logs := lp.logs ++ [LogEvent.nextSpeakerCheck prompt_id]
        if popNS.1 then
          let sub := recur lp.st orc2 (Request.parts [Part.text "Please continue."])
            (boundedTurns - 1) false
          ⟨compressionEvents ++ lp.events ++ sub.events, logs ++ sub.logs,
           sub.st, sub.orc, sub.fuelOk⟩
        else
          ⟨compressionEvents ++ lp.events, logs, lp.st, orc2, lp.fuelOk⟩
    else
      ⟨compressionEvents ++ lp.events, lp.logs, lp.st, lp.orc, lp.fuelOk⟩

/-- Body of one sendMessageStream invocation (lines 489-685), with the
recursive continuation abstracted as `recur`. -/
def sendBody (recur : SessionState → Oracle → Request → Int → Bool → StreamOut)
    (env : Env) (st0 : SessionState) (orc0 : Oracle) (request : Request)
    (prompt_id : String) (turns : Int) (isInvalidStreamRetry : Bool) : StreamOut :=
  let st := entryState st0 prompt_id
  if sessionCapHit env st then
    ⟨[.maxSessionTurns], [], st, orc0, true⟩
  else if boundedTurnsOf turns = 0 then ⟨[], [], st, orc0, true⟩
  else
    match contextWindowCheck env st request with
    | some overflowEvent => ⟨[overflowEvent], [], st, orc0, true⟩
    | none =>
      let prep := preparedState env st prompt_id
      let popTS := popD orc0.turnStarted false
      let orc := { orc0 with turnStarted := popTS.2 }
      if popTS.1 then
        ⟨prep.2 ++ [.loopDetected], [], prep.1, orc, true⟩
      else
        let sel := selectModel prep.1 orc
        let popRun := popD sel.2.2.runs ⟨[], false⟩
        let orc2 := { sel.2.2 with runs := popRun.2 }
        let st2 := { sel.2.1 with modelCallCount := sel.2.1.modelCallCount + 1 }
        afterRun recur env prep.2 prompt_id (boundedTurnsOf turns) isInvalidStreamRetry
          sel.1 popRun.1 st2 orc2

/-- sendMessageStream, driven by explicit recursion fuel: fuel 0 marks an
unfinished run (`fuelOk = false`); otherwise one invocation body runs with
the recursive continuation at one less fuel. -/
def sendMessageStream (env : Env) : Nat → SessionState → Oracle → Request → String → Int
    → Bool → StreamOut
  | 0, st, orc, _, _, _, _ => ⟨[], [], st, orc, false⟩
  | fuel + 1, st, orc, request, prompt_id, turns, isInvalidStreamRetry =>
    sendBody (fun st1 orc1 req1 turns1 retry1 =>
        sendMessageStream env fuel st1 orc1 req1 prompt_id turns1 retry1)
      env st orc request prompt_id turns isInvalidStreamRetry

/-- The cursor-moved change carried by a context payload, if any. -/
def payloadCursorMoved : Option IdePayload → Option (String × IdeCursor)
  | some (.delta d) => d.cursorMoved
  | _ => none

/-- The selection-changed change carried by a context payload, if any. -/
def payloadSelectionChanged : Option IdePayload → Option (String × String)
  | some (.delta d) => d.selectionChanged
  | _ => none

/-- Last-sent snapshot for the cursor-removal scenario: one active file
with a cursor at (1,2). -/
def cursorGoneLast : IdeContext := ⟨some [⟨"a.ts", true, some ⟨1, 2⟩, none⟩]⟩

/-- Current snapshot for the cursor-removal scenario: the same active
file, now without a cursor. -/
def cursorGoneCur : IdeContext := ⟨some [⟨"a.ts", true, none, none⟩]⟩

/-- Current snapshot for the cursor-move witness scenario: the same
active file with the cursor moved to (3,4). -/
def cursorMovedCur : IdeContext := ⟨some [⟨"a.ts", true, some ⟨3, 4⟩, none⟩]⟩

/-- Oracle whose first three turn.run calls each produce exactly one
invalid-stream event: a third model call would observe a third
InvalidStream, so the absence of a third call is observable. -/
def invalidTwiceOracle : Oracle where
  turnStarted := []
  addAndCheck := []
  routes := ["model-x"]
  runs := [⟨[.invalidStream], false⟩, ⟨[.invalidStream], false⟩, ⟨[.invalidStream], false⟩]
  nextSpeaker := []

/-- Baseline host configuration for concrete witness scenarios: caps and
collaborator hooks chosen so that every guard passes benignly. -/
def exEnvBase : Env where
  maxSessionTurns := 0
  ideMode := false
  ideContext := none
  continueOnFailedApiCall := true
  quotaErrorOccurred := false
  skipNextSpeakerCheck := false
  signalAborted := false
  configModel := "m"
  inFallbackMode := false
  tokenLimitOf := fun _ => 1000000
  chatCompressionThreshold := none
  curate := fun _ => []
  userMemory := ""
  envContextString := ""
  summaryFor := fun _ => ""

/-- Baseline session state for concrete witness scenarios. -/
def exStateBase : SessionState where
  chat := ⟨[]⟩
  sessionTurnCount := 0
  lastPromptId := "p"
  currentSequenceModel := none
  lastSentIdeContext := none
  forceFullIdeContext := true
  lastKnownChatUserMemory := some ""
  hasFailedCompressionAttempt := false
  lastPromptTokenCount := 0
  routerCallCount := 0
  modelCallCount := 0
  invalidRetryCount := 0

/-- Environment for the context-window scenarios of the spec: a model
token limit of 10000 so that, from a fresh state, the remaining budget is
exactly 10000. -/
def overflowEnv : Env :=
  { exEnvBase with tokenLimitOf := fun _ => 10000 }

/-- Environment for the compression-tie scenario: identity curation, a
one-character environment context and a one-character summary. -/
def inflationTieEnv : Env :=
  { exEnvBase with
      curate := fun h => h
      tokenLimitOf := fun _ => 0
      envContextString := "E"
      summaryFor := fun _ => "S" }

/-- History for the compression-tie scenario. -/
def inflationTieHistory : List Content :=
  [⟨"user", some [Part.text
      "hello world, a reasonably long user message for compression."]⟩,
   ⟨"model", some [Part.text "ok"]⟩]

/-- State for the compression-tie scenario: its tracked token count (76)
equals the estimate of the rebuilt history. -/
def inflationTieState : SessionState :=
  { exStateBase with chat := ⟨inflationTieHistory⟩, lastPromptTokenCount := 76 }

theorem boundedTurnsOf_eq_min (turns : Int) : boundedTurnsOf turns = min turns MAX_TURNS := by
  rw [boundedTurnsOf, min_def]

theorem targetReached_iff (total : Nat) (f : ℚ) (cum : Nat) :
    targetReached total f cum = true ↔ (total : ℚ) * f ≤ (cum : ℚ) := by
  rw [targetReached, decide_eq_true_eq]
  have hden : (0 : ℚ) < (f.den : ℚ) := by exact_mod_cast f.den_pos
  conv_rhs => rw [← Rat.num_div_den f]
  rw [← mul_div_assoc, div_le_iff hden]
  constructor <;> intro h <;> exact_mod_cast h

theorem targetReached_eq_decide (total : Nat) (f : ℚ) (cum : Nat) :
    targetReached total f cum = decide ((total : ℚ) * f ≤ (cum : ℚ)) := by
  by_cases hq : (total : ℚ) * f ≤ (cum : ℚ)
  · rw [(targetReached_iff total f cum).mpr hq, decide_eq_true hq]
  · have h1 : targetReached total f cum = false := by
      rcases Bool.eq_false_or_eq_true (targetReached total f cum) with h | h
      · exact absurd ((targetReached_iff total f cum).mp h) hq
      · exact h
    rw [h1, decide_eq_false hq]

theorem belowThreshold_iff (orig : Nat) (threshold : ℚ) (limit : Nat) :
    belowThreshold orig threshold limit = true
      ↔ (orig : ℚ) < threshold * (limit : ℚ) := by
  rw [belowThreshold, decide_eq_true_eq]
  have hden : (0 : ℚ) < (threshold.den : ℚ) := by exact_mod_cast threshold.den_pos
  conv_rhs => rw [← Rat.num_div_den threshold]
  rw [div_mul_eq_mul_div, lt_div_iff hden]
  constructor <;> intro h <;> exact_mod_cast h

theorem overflowTriggered_iff (est : Nat) (rem : Int) :
    overflowTriggered est rem = true ↔ (est : ℚ) > (rem : ℚ) * 0.95 := by
  rw [overflowTriggered, decide_eq_true_eq]
  have h95 : (0.95 : ℚ) = 19 / 20 := by norm_num
  rw [gt_iff_lt, gt_iff_lt, h95]
  rw [show (rem : ℚ) * (19 / 20) = rem * 19 / 20 by ring]
  rw [div_lt_iff (by norm_num : (0 : ℚ) < 20)]
  constructor <;> intro h <;> exact_mod_cast h

theorem COMPRESSION_TOKEN_THRESHOLD_eq : COMPRESSION_TOKEN_THRESHOLD = 0.7 := by
  rw [COMPRESSION_TOKEN_THRESHOLD, Rat.mkRat_eq_div]
  norm_num

theorem COMPRESSION_PRESERVE_THRESHOLD_eq : COMPRESSION_PRESERVE_THRESHOLD = 0.3 := by
  rw [COMPRESSION_PRESERVE_THRESHOLD, Rat.mkRat_eq_div]
  norm_num

theorem compressionSplitFraction_eq :
    compressionSplitFraction = 1 - COMPRESSION_PRESERVE_THRESHOLD := by
  rw [compressionSplitFraction, COMPRESSION_PRESERVE_THRESHOLD,
    Rat.mkRat_eq_div, Rat.mkRat_eq_div]
  norm_num

theorem splitScan_eq (t : Nat → Bool) (l : List Content) : ∀ (i cum ls : Nat),
    splitScan t l i cum ls =
      match firstHit t l cum with
      | some k => Sum.inl (i + k)
      | none =>
          Sum.inr (match lastValidIn l with
            | some k => i + k
            | none => ls) := by
  induction l with
  | nil => intro i cum ls; simp [splitScan, firstHit, lastValidIn]
  | cons c rest ih =>
    intro i cum ls
    by_cases hv : isValidSplit c = true
    · by_cases ht : t cum = true
      · simp [splitScan, firstHit, hv, ht]
      · rw [show splitScan t (c :: rest) i cum ls
              = splitScan t rest (i + 1) (cum + c.jsonLength) i by
            simp [splitScan, hv, ht]]
        rw [ih]
        rw [show firstHit t (c :: rest) cum
              = (firstHit t rest (cum + c.jsonLength)).map (· + 1) by
            simp [firstHit, hv, ht]]
        cases hfh : firstHit t rest (cum + c.jsonLength) with
        | some k => simp [Option.map_some, Nat.add_assoc, Nat.add_comm 1 k]
        | none =>
          simp only [Option.map_none]
          cases hlv : lastValidIn rest with
          | some k => simp [lastValidIn, hlv, Nat.add_assoc, Nat.add_comm 1 k]
          | none => simp [lastValidIn, hlv, hv]
    · rw [show splitScan t (c :: rest) i cum ls
            = splitScan t rest (i + 1) (cum + c.jsonLength) ls by
          simp [splitScan, hv]]
      rw [ih]
      rw [show firstHit t (c :: rest) cum
            = (firstHit t rest (cum + c.jsonLength)).map (· + 1) by
          simp [firstHit, hv]]
      cases hfh : firstHit t rest (cum + c.jsonLength) with
      | some k => simp [Option.map_some, Nat.add_assoc, Nat.add_comm 1 k]
      | none =>
        simp only [Option.map_none]
        cases hlv : lastValidIn rest with
        | some k => simp [lastValidIn, hlv, Nat.add_assoc, Nat.add_comm 1 k]
        | none => simp [lastValidIn, hlv, hv]

theorem prefixWeight_zero (l : List Content) : prefixWeight l 0 = 0 := by
  simp [prefixWeight]

theorem prefixWeight_succ_cons (c : Content) (l : List Content) (k : Nat) :
    prefixWeight (c :: l) (k + 1) = c.jsonLength + prefixWeight l k := by
  simp [prefixWeight, List.take_succ_cons]

theorem firstIdxFrom_shift (p : Nat → Bool) : ∀ (fuel s : Nat),
    firstIdxFrom p fuel (s + 1) = (firstIdxFrom (fun i => p (i + 1)) fuel s).map (· + 1) := by
  intro fuel
  induction fuel with
  | zero => intro s; simp [firstIdxFrom]
  | succ n ih =>
    intro s
    by_cases hp : p (s + 1) = true
    · simp [firstIdxFrom, hp]
    · simp only [firstIdxFrom, hp, if_false, Bool.false_eq_true, ih]

theorem firstHit_eq_firstIdxFrom (t : Nat → Bool) : ∀ (l : List Content) (cum : Nat),
    firstHit t l cum
      = firstIdxFrom
          (fun k => isValidSplit (l.getD k default) && t (cum + prefixWeight l k))
          l.length 0 := by
  intro l
  induction l with
  | nil => intro cum; simp [firstHit, firstIdxFrom]
  | cons c rest ih =>
    intro cum
    rw [show (c :: rest).length = rest.length + 1 from rfl]
    rw [show firstIdxFrom
          (fun k => isValidSplit ((c :: rest).getD k default)
            && t (cum + prefixWeight (c :: rest) k))
          (rest.length + 1) 0
        = if isValidSplit ((c :: rest).getD 0 default)
            && t (cum + prefixWeight (c :: rest) 0) then some 0
          else firstIdxFrom
            (fun k => isValidSplit ((c :: rest).getD k default)
              && t (cum + prefixWeight (c :: rest) k))
            rest.length 1 from rfl]
    by_cases h0 : isValidSplit c = true ∧ t cum = true
    · have : (isValidSplit ((c :: rest).getD 0 default)
          && t (cum + prefixWeight (c :: rest) 0)) = true := by
        simp [List.getD_cons_zero, prefixWeight_zero, h0.1, h0.2]
      rw [this]
      simp [firstHit, h0]
    · have hcond : (isValidSplit ((c :: rest).getD 0 default)
          && t (cum + prefixWeight (c :: rest) 0)) = false := by
        simp only [List.getD_cons_zero, prefixWeight_zero, Nat.add_zero]
        rw [Bool.and_eq_false_iff]
        by_cases hv : isValidSplit c = true
        · right
          by_cases ht : t cum = true
          · exact absurd ⟨hv, ht⟩ h0
          · exact Bool.eq_false_iff.mpr ht
        · left; simpa using hv
      rw [hcond]
      simp only [Bool.false_eq_true, if_false]
      rw [firstIdxFrom_shift]
      have hpred : (fun i => isValidSplit ((c :: rest).getD (i + 1) default)
            && t (cum + prefixWeight (c :: rest) (i + 1)))
          = (fun k => isValidSplit (rest.getD k default)
            && t ((cum + c.jsonLength) + prefixWeight rest k)) := by
        funext i
        rw [List.getD_cons_succ, prefixWeight_succ_cons]
        rw [show cum + (c.jsonLength + prefixWeight rest i)
              = cum + c.jsonLength + prefixWeight rest i by omega]
      rw [show firstHit t (c :: rest) cum
            = (firstHit t rest (cum + c.jsonLength)).map (· + 1) by
          simp [firstHit, h0]]
      rw [ih, hpred]

theorem lastIdxSatisfying_succ (p : Nat → Bool) (n : Nat) :
    lastIdxSatisfying p (n + 1) = if p n then n else lastIdxSatisfying p n := by
  by_cases hp : p n = true <;>
    simp [lastIdxSatisfying, List.range_succ, List.foldl_append, hp]

theorem lastIdxSatisfying_of_none (p : Nat → Bool) : ∀ (n : Nat),
    (∀ i, i < n → p i = false) → lastIdxSatisfying p n = 0 := by
  intro n
  induction n with
  | zero => intro _; simp [lastIdxSatisfying]
  | succ m ih =>
    intro h
    rw [lastIdxSatisfying_succ]
    rw [h m (Nat.lt_succ_self m)]
    simp only [Bool.false_eq_true, if_false]
    exact ih (fun i hi => h i (Nat.lt_succ_of_lt hi))

theorem lastIdxSatisfying_of_last (p : Nat → Bool) : ∀ (n k : Nat),
    k < n → p k = true → (∀ j, k < j → j < n → p j = false) →
    lastIdxSatisfying p n = k := by
  intro n
  induction n with
  | zero => intro k hk; omega
  | succ m ih =>
    intro k hk hpk hafter
    rw [lastIdxSatisfying_succ]
    by_cases hkm : k = m
    · subst hkm; rw [hpk]; simp
    · have hkm' : k < m := by omega
      rw [hafter m hkm' (Nat.lt_succ_self m)]
      simp only [Bool.false_eq_true, if_false]
      exact ih k hkm' hpk (fun j hj hjm => hafter j hj (Nat.lt_succ_of_lt hjm))

theorem lastValidIn_none_spec : ∀ (l : List Content),
    lastValidIn l = none → ∀ i, i < l.length → isValidSplit (l.getD i default) = false := by
  intro l
  induction l with
  | nil => intro _ i hi; simp at hi
  | cons c rest ih =>
    intro h i hi
    rw [show lastValidIn (c :: rest)
          = (match lastValidIn rest with
            | some k => some (k + 1)
            | none => if isValidSplit c then some 0 else none) from rfl] at h
    cases hlv : lastValidIn rest with
    | some k => rw [hlv] at h; simp at h
    | none =>
      rw [hlv] at h
      by_cases hv : isValidSplit c = true
      · rw [if_pos hv] at h; simp at h
      · cases i with
        | zero => simpa using hv
        | succ j =>
          rw [List.getD_cons_succ]
          exact ih hlv j (by simpa using hi)

theorem lastValidIn_some_spec : ∀ (l : List Content) (k : Nat),
    lastValidIn l = some k →
      k < l.length ∧ isValidSplit (l.getD k default) = true ∧
        ∀ j, k < j → j < l.length → isValidSplit (l.getD j default) = false := by
  intro l
  induction l with
  | nil => intro k h; simp [lastValidIn] at h
  | cons c rest ih =>
    intro k h
    rw [show lastValidIn (c :: rest)
          = (match lastValidIn rest with
            | some k => some (k + 1)
            | none => if isValidSplit c then some 0 else none) from rfl] at h
    cases hlv : lastValidIn rest with
    | some m =>
      rw [hlv] at h
      have hk : k = m + 1 := by simpa using h.symm
      subst hk
      obtain ⟨hlt, hval, hafter⟩ := ih m hlv
      refine ⟨by simpa using Nat.succ_lt_succ hlt, by simpa using hval, ?_⟩
      intro j hj hjlen
      cases j with
      | zero => omega
      | succ j' =>
        rw [List.getD_cons_succ]
        exact hafter j' (by omega) (by simpa using hjlen)
    | none =>
      rw [hlv] at h
      by_cases hv : isValidSplit c = true
      · rw [if_pos hv] at h
        have hk : k = 0 := by simpa using h.symm
        subst hk
        refine ⟨by simp, by simpa using hv, ?_⟩
        intro j hj hjlen
        cases j with
        | zero => omega
        | succ j' =>
          rw [List.getD_cons_succ]
          exact lastValidIn_none_spec rest hlv j' (by simpa using hjlen)
      · rw [if_neg hv] at h; simp at h

theorem lastValidIn_eq_lastIdxSatisfying (l : List Content) :
    (match lastValidIn l with | some k => k | none => 0)
      = lastIdxSatisfying (fun i => isValidSplit (l.getD i default)) l.length := by
  cases hlv : lastValidIn l with
  | some k =>
    obtain ⟨hlt, hval, hafter⟩ := lastValidIn_some_spec l k hlv
    exact (lastIdxSatisfying_of_last _ _ _ hlt hval hafter).symm
  | none =>
    exact (lastIdxSatisfying_of_none _ _ (lastValidIn_none_spec l hlv)).symm

theorem findCompressSplitPointCore_eq_spec (contents : List Content) (fraction : ℚ) :
    findCompressSplitPointCore contents fraction
      = findCompressSplitPointSpec contents fraction := by
  unfold findCompressSplitPointCore findCompressSplitPointSpec
  rw [splitScan_eq]
  rw [firstHit_eq_firstIdxFrom]
  have hpred : (fun k => isValidSplit (contents.getD k default)
        && targetReached ((contents.map Content.jsonLength).sum) fraction
          (0 + prefixWeight contents k))
      = (fun i => isValidSplit (contents.getD i default)
        && decide (splitTarget contents fraction ≤ ((prefixWeight contents i : Nat) : ℚ))) := by
    funext k
    rw [Nat.zero_add, targetReached_eq_decide]
    rfl
  rw [hpred]
  cases hfi : firstIdxFrom
      (fun i => isValidSplit (contents.getD i default)
        && decide (splitTarget contents fraction ≤ ((prefixWeight contents i : Nat) : ℚ)))
      contents.length 0 with
  | some i => simp
  | none =>
    simp only [Nat.zero_add]
    cases hgl : contents.getLast? with
    | some lastContent =>
      by_cases hlc : (lastContent.role == "model" && !lastContent.hasFunctionCall) = true
      · simp [hlc]
      · simp only [hlc, Bool.false_eq_true, if_false]
        exact lastValidIn_eq_lastIdxSatisfying contents
    | none =>
      simp only [Bool.false_eq_true, if_false]
      exact lastValidIn_eq_lastIdxSatisfying contents

theorem firstIdxFrom_some (p : Nat → Bool) : ∀ (fuel s i : Nat),
    firstIdxFrom p fuel s = some i → s ≤ i ∧ i < s + fuel ∧ p i = true := by
  intro fuel
  induction fuel with
  | zero => intro s i h; simp [firstIdxFrom] at h
  | succ m ih =>
    intro s i h
    rw [firstIdxFrom] at h
    by_cases hp : p s = true
    · rw [if_pos hp] at h
      have : s = i := by simpa using h
      subst this
      exact ⟨Nat.le_refl s, by omega, hp⟩
    · rw [if_neg hp] at h
      obtain ⟨h1, h2, h3⟩ := ih (s + 1) i h
      exact ⟨by omega, by omega, h3⟩

theorem lastIdxSatisfying_cases (p : Nat → Bool) (n : Nat) :
    lastIdxSatisfying p n = 0
      ∨ (lastIdxSatisfying p n < n ∧ p (lastIdxSatisfying p n) = true) := by
  induction n with
  | zero => left; simp [lastIdxSatisfying]
  | succ m ih =>
    rw [lastIdxSatisfying_succ]
    by_cases hp : p m = true
    · right; rw [if_pos hp]; exact ⟨Nat.lt_succ_self m, hp⟩
    · rw [if_neg hp]
      rcases ih with h | ⟨h1, h2⟩
      · left; exact h
      · right; exact ⟨Nat.lt_succ_of_lt h1, h2⟩

theorem findCompressSplitPointCore_le (contents : List Content) (fraction : ℚ) :
    findCompressSplitPointCore contents fraction ≤ contents.length := by
  rw [findCompressSplitPointCore_eq_spec]
  unfold findCompressSplitPointSpec
  cases hfi : firstIdxFrom
      (fun i => isValidSplit (contents.getD i default)
        && decide (splitTarget contents fraction ≤ ((prefixWeight contents i : Nat) : ℚ)))
      contents.length 0 with
  | some i =>
    obtain ⟨-, h2, -⟩ := firstIdxFrom_some _ _ _ _ hfi
    simpa using Nat.le_of_lt (by simpa using h2)
  | none =>
    by_cases hlc : (match contents.getLast? with
        | some lastContent => lastContent.role == "model" && !lastContent.hasFunctionCall
        | none => false) = true
    · simp [hlc]
    · simp only [hlc, Bool.false_eq_true, if_false]
      rcases lastIdxSatisfying_cases
          (fun i => isValidSplit (contents.getD i default)) contents.length with h | ⟨h1, -⟩
      · rw [h]; exact Nat.zero_le _
      · exact Nat.le_of_lt h1

theorem findCompressSplitPointCore_valid (contents : List Content) (fraction : ℚ)
    (i : Nat) (hi : i < contents.length)
    (h : findCompressSplitPointCore contents fraction = i) :
    i = 0 ∨ isValidSplit (contents.getD i default) = true := by
  rw [findCompressSplitPointCore_eq_spec] at h
  unfold findCompressSplitPointSpec at h
  cases hfi : firstIdxFrom
      (fun i => isValidSplit (contents.getD i default)
        && decide (splitTarget contents fraction ≤ ((prefixWeight contents i : Nat) : ℚ)))
      contents.length 0 with
  | some j =>
    rw [hfi] at h
    obtain ⟨-, -, h3⟩ := firstIdxFrom_some _ _ _ _ hfi
    right
    rw [← h]
    have := (Bool.and_eq_true _ _).mp h3
    exact this.1
  | none =>
    rw [hfi] at h
    have h2 : (if (match contents.getLast? with
          | some lastContent => lastContent.role == "model" && !lastContent.hasFunctionCall
          | none => false) = true then contents.length
        else lastIdxSatisfying (fun k => isValidSplit (contents.getD k default))
          contents.length) = i := h
    by_cases hlc : (match contents.getLast? with
        | some lastContent => lastContent.role == "model" && !lastContent.hasFunctionCall
        | none => false) = true
    · rw [if_pos hlc] at h2
      omega
    · rw [if_neg hlc] at h2
      rcases lastIdxSatisfying_cases
          (fun k => isValidSplit (contents.getD k default)) contents.length with h0 | ⟨-, h3⟩
      · left; omega
      · right; rw [← h2]; exact h3

theorem isValidSplit_no_functionResponse (c : Content) (h : isValidSplit c = true) :
    c.hasFunctionResponse = false := by
  rw [isValidSplit, Bool.and_eq_true] at h
  simpa using h.2

theorem contextInjection_of_pendingToolCall (env : Env) (st : SessionState)
    (h : hasPendingToolCallIn st.chat.history = true) :
    contextInjection env st = st := by
  rw [contextInjection]
  rw [show (env.ideMode && !hasPendingToolCallIn st.chat.history) = false by
    rw [h]; simp]
  simp

/-- C1 (corrected; the original claim fails because the fallback split
point 0 may itself be a function-response entry — see the counterexample —
though splitting at 0 compresses nothing). Amended claim: (1) for every
history whose FIRST entry is not a function-response entry (as any history
satisfying the protocol invariant must be, a response needing a preceding
call) and every fraction in (0,1), the index returned by
findCompressSplitPoint, when it denotes an entry of the history, is never
an entry containing a function-response part, so splitting there never
separates a function-call from its paired response; and (2) whenever the
last history entry is model-authored and contains a function-call part,
the context-injection step of sendMessageStream appends no synthetic
IDE-context user entry and leaves the state untouched in that
invocation. -/
theorem C1_split_and_pending_guard_preserve_protocol :
    (∀ (contents : List Content) (fraction : ℚ), 0 < fraction → fraction < 1 →
      (∀ c0, contents.head? = some c0 → c0.hasFunctionResponse = false) →
      ∀ i, findCompressSplitPoint contents fraction = Except.ok i →
        i < contents.length → (contents.getD i default).hasFunctionResponse = false)
    ∧ (∀ (env : Env) (st : SessionState),
        hasPendingToolCallIn st.chat.history = true → contextInjection env st = st) := by
  constructor
  · intro contents fraction h0 h1 hhead i hok hi
    have hcore : findCompressSplitPointCore contents fraction = i := by
      rw [findCompressSplitPoint, if_neg (by push_neg; constructor <;> linarith)] at hok
      injection hok
    rcases findCompressSplitPointCore_valid contents fraction i hi hcore with h | h
    · subst h
      cases contents with
      | nil => simp at hi
      | cons c rest =>
        have := hhead c (by rfl)
        simpa [List.getD_cons_zero] using this
    · exact isValidSplit_no_functionResponse _ h
  · intro env st h
    exact contextInjection_of_pendingToolCall env st h

/-- C1 counterexample: on the single-entry history whose only entry is a
user-role function-response, with fraction 1/2, findCompressSplitPoint
returns index 0 — an entry that does contain a function-response part,
contradicting the claim as stated for every history. -/
theorem C1_counterexample :
    findCompressSplitPoint [⟨"user", some [Part.functionResponse "f"]⟩] (mkRat 1 2)
      = Except.ok 0
    ∧ Content.hasFunctionResponse ⟨"user", some [Part.functionResponse "f"]⟩ = true := by
  constructor
  · decide
  · decide

theorem C1_witness :
    (0 : ℚ) < mkRat 1 2 ∧ mkRat 1 2 < 1
    ∧ (Content.hasFunctionResponse
        (([⟨"user", some [Part.text "hi"]⟩] : List Content).getD 0 default)) = false
    ∧ (∀ (env : Env) (st : SessionState),
        hasPendingToolCallIn st.chat.history = true → contextInjection env st = st) := by
  refine ⟨by decide, by decide, ?_, C1_split_and_pending_guard_preserve_protocol.2⟩
  exact C1_split_and_pending_guard_preserve_protocol.1
    [⟨"user", some [Part.text "hi"]⟩] (mkRat 1 2) (by decide) (by decide)
    (by intro c0 h; injection h with h; rw [← h]; decide)
    0 (by decide) (by decide)

/-- C2: for every content list and every fraction strictly between 0 and
1, findCompressSplitPoint — weighting each entry by the length of its
JSON-serialized form — returns exactly the index described by the
specification: the first user-role, non-function-response index whose
preceding cumulative weight reaches fraction × total weight; otherwise
the full length when the final entry is model-authored with no
function-call part; otherwise the last valid candidate index seen (0 if
none). -/
theorem C2_findCompressSplitPoint_matches_spec (contents : List Content) (fraction : ℚ)
    (h0 : 0 < fraction) (h1 : fraction < 1) :
    findCompressSplitPoint contents fraction
      = Except.ok (findCompressSplitPointSpec contents fraction) := by
  rw [findCompressSplitPoint, if_neg (by push_neg; constructor <;> linarith)]
  rw [findCompressSplitPointCore_eq_spec]

theorem C2_witness :
    (0 : ℚ) < mkRat 7 10 ∧ mkRat 7 10 < 1
    ∧ findCompressSplitPoint
        [⟨"user", some [Part.text "hello"]⟩, ⟨"model", some [Part.text "hi"]⟩,
         ⟨"user", some [Part.text "do X"]⟩, ⟨"model", some [Part.functionCall "A"]⟩,
         ⟨"user", some [Part.functionResponse "A"]⟩, ⟨"model", some [Part.text "done"]⟩]
        (mkRat 7 10)
      = Except.ok (findCompressSplitPointSpec
        [⟨"user", some [Part.text "hello"]⟩, ⟨"model", some [Part.text "hi"]⟩,
         ⟨"user", some [Part.text "do X"]⟩, ⟨"model", some [Part.functionCall "A"]⟩,
         ⟨"user", some [Part.functionResponse "A"]⟩, ⟨"model", some [Part.text "done"]⟩]
        (mkRat 7 10))
    ∧ findCompressSplitPoint
        [⟨"user", some [Part.text "hello"]⟩, ⟨"model", some [Part.text "hi"]⟩,
         ⟨"user", some [Part.text "do X"]⟩, ⟨"model", some [Part.functionCall "A"]⟩,
         ⟨"user", some [Part.functionResponse "A"]⟩, ⟨"model", some [Part.text "done"]⟩]
        (mkRat 7 10)
      = Except.ok 6 := by
  refine ⟨by decide, by decide, ?_, by decide⟩
  exact C2_findCompressSplitPoint_matches_spec _ (mkRat 7 10) (by decide) (by decide)

/-- C10: findCompressSplitPoint throws exactly when its fraction argument
is ≤ 0 or ≥ 1; for every fraction strictly between 0 and 1 it returns
normally, with an index between 0 and the length of the input list
inclusive. -/
theorem C10_fraction_guard_and_bounds (contents : List Content) (fraction : ℚ) :
    ((fraction ≤ 0 ∨ 1 ≤ fraction) →
      findCompressSplitPoint contents fraction
        = Except.error "Fraction must be between 0 and 1")
    ∧ (0 < fraction → fraction < 1 →
        findCompressSplitPoint contents fraction
            = Except.ok (findCompressSplitPointCore contents fraction)
          ∧ findCompressSplitPointCore contents fraction ≤ contents.length) := by
  constructor
  · intro h
    rw [findCompressSplitPoint, if_pos h]
  · intro h0 h1
    refine ⟨?_, findCompressSplitPointCore_le contents fraction⟩
    rw [findCompressSplitPoint, if_neg (by push_neg; constructor <;> linarith)]

theorem C10_witness :
    findCompressSplitPoint [⟨"user", some [Part.text "hi"]⟩] (mkRat 3 1)
        = Except.error "Fraction must be between 0 and 1"
    ∧ findCompressSplitPoint [⟨"user", some [Part.text "hi"]⟩] (mkRat 1 2)
        = Except.ok (findCompressSplitPointCore [⟨"user", some [Part.text "hi"]⟩] (mkRat 1 2))
    ∧ findCompressSplitPointCore [⟨"user", some [Part.text "hi"]⟩] (mkRat 1 2)
        ≤ ([⟨"user", some [Part.text "hi"]⟩] : List Content).length := by
  refine ⟨?_, ?_, ?_⟩
  · exact (C10_fraction_guard_and_bounds _ (mkRat 3 1)).1 (Or.inr (by decide))
  · exact ((C10_fraction_guard_and_bounds _ (mkRat 1 2)).2 (by decide) (by decide)).1
  · exact ((C10_fraction_guard_and_bounds _ (mkRat 1 2)).2 (by decide) (by decide)).2

/-- C7: tryCompressChat with an empty curated history, or called
non-forced after a recorded non-forced failure, returns NOOP with equal
(zero) token counts and mutates nothing, so a repeated call yields the
same NOOP result. -/
theorem C7_noop_short_circuit_idempotent (env : Env) (st : SessionState)
    (prompt_id : String) (force : Bool)
    (h : curatedHistoryOf env st = []
      ∨ (st.hasFailedCompressionAttempt = true ∧ force = false)) :
    tryCompressChat env st prompt_id force
        = (⟨0, 0, CompressionStatus.noop⟩, st)
    ∧ tryCompressChat env (tryCompressChat env st prompt_id force).2 prompt_id force
        = (⟨0, 0, CompressionStatus.noop⟩, st) := by
  have hcond : ((curatedHistoryOf env st).isEmpty
      || (st.hasFailedCompressionAttempt && !force)) = true := by
    rcases h with h | ⟨h1, h2⟩
    · rw [h]; simp
    · rw [h1, h2]; simp
  have hmain : tryCompressChat env st prompt_id force
      = (⟨0, 0, CompressionStatus.noop⟩, st) := by
    simp only [tryCompressChat]
    rw [hcond]
    simp
  exact ⟨hmain, by rw [hmain, hmain]⟩

theorem C7_witness :
    curatedHistoryOf exEnvBase
        { exStateBase with chat := ⟨[⟨"user", some [Part.text "hi"]⟩]⟩ } = []
    ∧ tryCompressChat exEnvBase
        { exStateBase with chat := ⟨[⟨"user", some [Part.text "hi"]⟩]⟩ } "p" false
      = (⟨0, 0, CompressionStatus.noop⟩,
         { exStateBase with chat := ⟨[⟨"user", some [Part.text "hi"]⟩]⟩ }) := by
  refine ⟨by decide, ?_⟩
  exact (C7_noop_short_circuit_idempotent exEnvBase
    { exStateBase with chat := ⟨[⟨"user", some [Part.text "hi"]⟩]⟩ } "p" false
    (Or.inl (by decide))).1

/-- C3 (corrected; the source tests `newTokenCount > originalTokenCount`,
strictly, so an attempt whose rebuilt estimate exactly EQUALS the
original is adopted as COMPRESSED — see the counterexample). Amended
claim: for every compression attempt that reaches the rebuild step, if
the rebuilt history's estimated token count is STRICTLY GREATER than the
original token count then tryCompressChat returns status FAILED_INFLATED,
the live chat and the tracked token counter are left unchanged, and the
compression-disabled flag is set exactly when the attempt was not
forced. -/
theorem C3_inflation_guard_strict (env : Env) (st : SessionState)
    (prompt_id : String) (force : Bool)
    (h1 : curatedHistoryOf env st ≠ [])
    (h2 : ¬(st.hasFailedCompressionAttempt = true ∧ force = false))
    (h3 : force = true
      ∨ belowThreshold st.lastPromptTokenCount
          ((env.chatCompressionThreshold).getD COMPRESSION_TOKEN_THRESHOLD)
          (env.tokenLimitOf (effectiveModelForCurrentTurn env st)) = false)
    (h4 : (curatedHistoryOf env st).take (compressionSplitPoint env st) ≠ [])
    (h5 : compressionNewTokenCount env st > st.lastPromptTokenCount) :
    tryCompressChat env st prompt_id force
      = (⟨st.lastPromptTokenCount, compressionNewTokenCount env st,
          CompressionStatus.compressionFailedInflatedTokenCount⟩,
         { st with
            forceFullIdeContext := true
            hasFailedCompressionAttempt := !force
            lastKnownChatUserMemory := some env.userMemory })
    ∧ (tryCompressChat env st prompt_id force).2.chat = st.chat
    ∧ (tryCompressChat env st prompt_id force).2.lastPromptTokenCount
        = st.lastPromptTokenCount
    ∧ (tryCompressChat env st prompt_id force).2.hasFailedCompressionAttempt = !force := by
  have hcond1 : ((curatedHistoryOf env st).isEmpty
      || (st.hasFailedCompressionAttempt && !force)) = false := by
    rw [Bool.or_eq_false_iff]
    constructor
    · simpa [List.isEmpty_iff] using h1
    · cases hforce : force
      · cases hfail : st.hasFailedCompressionAttempt
        · simp
        · exact absurd ⟨hfail, hforce⟩ h2
      · simp
  have hcond2 : (!force && belowThreshold st.lastPromptTokenCount
      ((env.chatCompressionThreshold).getD COMPRESSION_TOKEN_THRESHOLD)
      (env.tokenLimitOf (effectiveModelForCurrentTurn env st))) = false := by
    rcases h3 with h | h
    · rw [h]; simp
    · rw [h]; simp
  have hcond3 : ((curatedHistoryOf env st).take (compressionSplitPoint env st)).isEmpty
      = false := by
    simpa [List.isEmpty_iff] using h4
  have hmain : tryCompressChat env st prompt_id force
      = (⟨st.lastPromptTokenCount, compressionNewTokenCount env st,
          CompressionStatus.compressionFailedInflatedTokenCount⟩,
         { st with
            forceFullIdeContext := true
            hasFailedCompressionAttempt := !force
            lastKnownChatUserMemory := some env.userMemory }) := by
    simp only [tryCompressChat]
    rw [hcond1]
    simp only [Bool.false_eq_true, if_false]
    rw [hcond2]
    simp only [Bool.false_eq_true, if_false]
    rw [hcond3]
    simp only [Bool.false_eq_true, if_false]
    rw [if_pos (by
      simpa [startChat, compressionNewTokenCount, rebuiltHistory, estimateTokens]
        using h5)]
    simp [startChat, compressionNewTokenCount, rebuiltHistory, estimateTokens]
  refine ⟨hmain, ?_, ?_, ?_⟩ <;> rw [hmain]

set_option maxRecDepth 100000 in
theorem C3_counterexample :
    (tryCompressChat inflationTieEnv inflationTieState "p" true).1.newTokenCount
      = (tryCompressChat inflationTieEnv inflationTieState "p" true).1.originalTokenCount
    ∧ (tryCompressChat inflationTieEnv inflationTieState "p" true).1.compressionStatus
      = CompressionStatus.compressed
    ∧ (tryCompressChat inflationTieEnv inflationTieState "p" true).2.chat
      ≠ inflationTieState.chat := by
  refine ⟨by decide, by decide, by decide⟩

set_option maxRecDepth 100000 in
theorem C3_witness :
    tryCompressChat inflationTieEnv { inflationTieState with lastPromptTokenCount := 0 }
        "p" false
      = (⟨0, compressionNewTokenCount inflationTieEnv
            { inflationTieState with lastPromptTokenCount := 0 },
          CompressionStatus.compressionFailedInflatedTokenCount⟩,
         { inflationTieState with
            lastPromptTokenCount := 0
            forceFullIdeContext := true
            hasFailedCompressionAttempt := true
            lastKnownChatUserMemory := some "" }) := by
  have h := (C3_inflation_guard_strict inflationTieEnv
    { inflationTieState with lastPromptTokenCount := 0 } "p" false
    (by decide) (by decide) (Or.inr (by decide)) (by decide) (by decide)).1
  simpa using h

theorem deltaChangesOf_same_path (cur last : IdeContext) (caf laf : IdeFile)
    (hcaf : (cur.openFiles.getD []).find? IdeFile.isActive = some caf)
    (hlaf : (last.openFiles.getD []).find? IdeFile.isActive = some laf)
    (hpath : laf.path = caf.path) :
    deltaChangesOf cur last =
      { filesOpened := (idePaths cur).filter (fun p => !(idePaths last).contains p)
        filesClosed := (idePaths last).filter (fun p => !(idePaths cur).contains p)
        activeFileChanged := none
        cursorMoved :=
          match caf.cursor with
          | some currentCursor =>
            match laf.cursor with
            | none => some (caf.path, currentCursor)
            | some lastCursor =>
              if lastCursor.line ≠ currentCursor.line
                  ∨ lastCursor.character ≠ currentCursor.character then
                some (caf.path, currentCursor)
              else none
          | none => none
        selectionChanged :=
          if laf.selectedText.getD "" ≠ caf.selectedText.getD "" then
            some (caf.path, caf.selectedText.getD "")
          else none } := by
  simp only [deltaChangesOf, hcaf, hlaf]
  rw [if_neg (show ¬(laf.path ≠ caf.path) by simp [hpath])]

theorem getIdeContextParts_delta (cur last : IdeContext) :
    (getIdeContextParts (some cur) (some last) false).1
      = (if (deltaChangesOf cur last).isEmpty then none
         else some (.delta (deltaChangesOf cur last))) := by
  by_cases h : (deltaChangesOf cur last).isEmpty = true
  · simp [getIdeContextParts, h]
  · simp [getIdeContextParts, h]

/-- C9 (corrected; the original claim fails when the active file\x27s cursor
is REMOVED: the cursor then differs between the snapshots but the source
emits a cursor-moved change only when the CURRENT snapshot has a cursor —
see the counterexample). Amended claim: in delta mode with the active
file\x27s path unchanged, getIdeContextParts includes a cursor-moved change
exactly when the current snapshot\x27s active file has a cursor and either
the previous one had none or it differs; a selection-changed change
exactly when the selected texts (treating absence as empty) differ; and
when no change of any kind exists it emits nothing. -/
theorem C9_delta_cursor_and_selection (cur last : IdeContext) (caf laf : IdeFile)
    (hcaf : (cur.openFiles.getD []).find? IdeFile.isActive = some caf)
    (hlaf : (last.openFiles.getD []).find? IdeFile.isActive = some laf)
    (hpath : laf.path = caf.path) :
    (payloadCursorMoved (getIdeContextParts (some cur) (some last) false).1 ≠ none
      ↔ (∃ cc, caf.cursor = some cc
          ∧ (laf.cursor = none
            ∨ ∃ lc, laf.cursor = some lc
                ∧ (lc.line ≠ cc.line ∨ lc.character ≠ cc.character))))
    ∧ (payloadSelectionChanged (getIdeContextParts (some cur) (some last) false).1 ≠ none
      ↔ laf.selectedText.getD "" ≠ caf.selectedText.getD "")
    ∧ ((idePaths cur).filter (fun p => !(idePaths last).contains p) = [] →
       (idePaths last).filter (fun p => !(idePaths cur).contains p) = [] →
       (∀ cc, caf.cursor = some cc →
          ∃ lc, laf.cursor = some lc ∧ lc.line = cc.line ∧ lc.character = cc.character) →
       laf.selectedText.getD "" = caf.selectedText.getD "" →
       (getIdeContextParts (some cur) (some last) false).1 = none) := by
  have hd := deltaChangesOf_same_path cur last caf laf hcaf hlaf hpath
  have hcm : (deltaChangesOf cur last).cursorMoved ≠ none
      ↔ (∃ cc, caf.cursor = some cc
          ∧ (laf.cursor = none
            ∨ ∃ lc, laf.cursor = some lc
                ∧ (lc.line ≠ cc.line ∨ lc.character ≠ cc.character))) := by
    rw [hd]
    cases hcc : caf.cursor with
    | none => simp [hcc]
    | some cc =>
      cases hlc : laf.cursor with
      | none => simp [hcc, hlc]
      | some lc =>
        simp only [hcc, hlc]
        by_cases hdiff : lc.line ≠ cc.line ∨ lc.character ≠ cc.character
        · rw [if_pos hdiff]
          simp [hdiff]
        · rw [if_neg hdiff]
          push_neg at hdiff
          simp [hdiff.1, hdiff.2]
  have hsel : (deltaChangesOf cur last).selectionChanged ≠ none
      ↔ laf.selectedText.getD "" ≠ caf.selectedText.getD "" := by
    rw [hd]
    by_cases hne : laf.selectedText.getD "" ≠ caf.selectedText.getD ""
    · rw [if_pos hne]; simp [hne]
    · rw [if_neg hne]; simp [hne]
  refine ⟨?_, ?_, ?_⟩
  · rw [getIdeContextParts_delta]
    by_cases hemp : (deltaChangesOf cur last).isEmpty = true
    · rw [if_pos hemp]
      have hnone : (deltaChangesOf cur last).cursorMoved = none := by
        rw [DeltaChanges.isEmpty] at hemp
        simp only [Bool.and_eq_true, Option.isNone_iff_eq_none] at hemp
        exact hemp.1.2
      constructor
      · intro hfalse; exact absurd rfl hfalse
      · intro hc; exact absurd hnone (hcm.mpr hc)
    · rw [if_neg hemp]
      simpa [payloadCursorMoved] using hcm
  · rw [getIdeContextParts_delta]
    by_cases hemp : (deltaChangesOf cur last).isEmpty = true
    · rw [if_pos hemp]
      have hnone : (deltaChangesOf cur last).selectionChanged = none := by
        rw [DeltaChanges.isEmpty] at hemp
        simp only [Bool.and_eq_true, Option.isNone_iff_eq_none] at hemp
        exact hemp.2
      constructor
      · intro hfalse; exact absurd rfl hfalse
      · intro hc; exact absurd hnone (hsel.mpr hc)
    · rw [if_neg hemp]
      simpa [payloadSelectionChanged] using hsel
  · intro hopen hclose hcur hseltext
    have hmem1 : ∀ a ∈ idePaths cur, a ∈ idePaths last := by
      intro a ha
      by_contra hnot
      have hin : a ∈ (idePaths cur).filter (fun p => !(idePaths last).contains p) := by
        rw [List.mem_filter]
        exact ⟨ha, by simpa using hnot⟩
      rw [hopen] at hin
      simp at hin
    have hmem2 : ∀ a ∈ idePaths last, a ∈ idePaths cur := by
      intro a ha
      by_contra hnot
      have hin : a ∈ (idePaths last).filter (fun p => !(idePaths cur).contains p) := by
        rw [List.mem_filter]
        exact ⟨ha, by simpa using hnot⟩
      rw [hclose] at hin
      simp at hin
    have hemp : (deltaChangesOf cur last).isEmpty = true := by
      rw [hd, DeltaChanges.isEmpty]
      cases hcc : caf.cursor with
      | none =>
        simp [hopen, hclose, hseltext]
        exact ⟨hmem1, hmem2⟩
      | some cc =>
        obtain ⟨lc, hlc, hline, hchar⟩ := hcur cc hcc
        simp [hopen, hclose, hseltext, hlc, hline, hchar]
        exact ⟨hmem1, hmem2⟩
    rw [getIdeContextParts_delta, if_pos hemp]

theorem C9_counterexample :
    ((cursorGoneLast.openFiles.getD []).find? IdeFile.isActive).bind IdeFile.cursor
      ≠ ((cursorGoneCur.openFiles.getD []).find? IdeFile.isActive).bind IdeFile.cursor
    ∧ (getIdeContextParts (some cursorGoneCur) (some cursorGoneLast) false).1 = none := by
  refine ⟨by decide, by decide⟩

theorem C9_witness :
    payloadCursorMoved
        (getIdeContextParts (some cursorMovedCur) (some cursorGoneLast) false).1 ≠ none
    ∧ (getIdeContextParts (some cursorGoneLast) (some cursorGoneLast) false).1 = none := by
  constructor
  · exact (C9_delta_cursor_and_selection cursorMovedCur cursorGoneLast
      ⟨"a.ts", true, some ⟨3, 4⟩, none⟩ ⟨"a.ts", true, some ⟨1, 2⟩, none⟩
      (by decide) (by decide) (by decide)).1.mpr
      ⟨⟨3, 4⟩, by decide, Or.inr ⟨⟨1, 2⟩, by decide, Or.inl (by decide)⟩⟩
  · exact (C9_delta_cursor_and_selection cursorGoneLast cursorGoneLast
      ⟨"a.ts", true, some ⟨1, 2⟩, none⟩ ⟨"a.ts", true, some ⟨1, 2⟩, none⟩
      (by decide) (by decide) (by decide)).2.2
      (by decide) (by decide)
      (by intro cc hcc; exact ⟨⟨1, 2⟩, by decide, by
        injection hcc with h; rw [← h], by injection hcc with h; rw [← h]⟩)
      (by decide)

/-- C8: on an InvalidStream event with the host configured to continue
past failed calls, the stream loop retries exactly once via a recursive
call carrying the synthetic "System: Please continue." message with the
anomaly-retry marker set true; a second InvalidStream under that marker
terminates the call without a third retry (the rest of the stream is not
processed, no further recursion) and logs a failure with attempt count 4.
The final conjunct is the two-consecutive-InvalidStream scenario run end
to end: two model calls, one injected retry, the attempt-count-4 log, and
no third call. -/
theorem C8_invalid_stream_retry_once_then_terminal :
    (∀ (recur : SessionState → Oracle → Request → Int → Bool → StreamOut)
       (env : Env) (modelToUse : String) (boundedTurns : Int)
       (st : SessionState) (orc : Oracle) (pre post : List TEvent),
       env.continueOnFailedApiCall = true →
       orc.addAndCheck = [] →
       (∀ e ∈ pre, e = TEvent.contentEvent) →
       runEventLoop recur env modelToUse boundedTurns true st orc
           (pre ++ TEvent.invalidStream :: post)
         = ⟨pre.map TEvent.toS ++ [SEvent.invalidStream],
            [LogEvent.contentRetryFailure 4 modelToUse], st, orc, true,
            LoopExit.earlyReturn⟩)
    ∧ (∀ (recur : SessionState → Oracle → Request → Int → Bool → StreamOut)
       (env : Env) (modelToUse : String) (boundedTurns : Int)
       (st : SessionState) (orc : Oracle) (pre post : List TEvent),
       env.continueOnFailedApiCall = true →
       orc.addAndCheck = [] →
       (∀ e ∈ pre, e = TEvent.contentEvent) →
       runEventLoop recur env modelToUse boundedTurns false st orc
           (pre ++ TEvent.invalidStream :: post)
         = ⟨pre.map TEvent.toS ++ SEvent.invalidStream ::
              (recur { st with invalidRetryCount := st.invalidRetryCount + 1 } orc
                (Request.parts [Part.text "System: Please continue."])
                (boundedTurns - 1) true).events,
            (recur { st with invalidRetryCount := st.invalidRetryCount + 1 } orc
                (Request.parts [Part.text "System: Please continue."])
                (boundedTurns - 1) true).logs,
            (recur { st with invalidRetryCount := st.invalidRetryCount + 1 } orc
                (Request.parts [Part.text "System: Please continue."])
                (boundedTurns - 1) true).st,
            (recur { st with invalidRetryCount := st.invalidRetryCount + 1 } orc
                (Request.parts [Part.text "System: Please continue."])
                (boundedTurns - 1) true).orc,
            (recur { st with invalidRetryCount := st.invalidRetryCount + 1 } orc
                (Request.parts [Part.text "System: Please continue."])
                (boundedTurns - 1) true).fuelOk,
            LoopExit.earlyReturn⟩)
    ∧ ((sendMessageStream exEnvBase 5 exStateBase invalidTwiceOracle
          (Request.str "hi") "p" 10 false).logs
        = [LogEvent.contentRetryFailure 4 "model-x"]
      ∧ (sendMessageStream exEnvBase 5 exStateBase invalidTwiceOracle
          (Request.str "hi") "p" 10 false).events
        = [SEvent.invalidStream, SEvent.invalidStream]
      ∧ (sendMessageStream exEnvBase 5 exStateBase invalidTwiceOracle
          (Request.str "hi") "p" 10 false).st.modelCallCount = 2
      ∧ (sendMessageStream exEnvBase 5 exStateBase invalidTwiceOracle
          (Request.str "hi") "p" 10 false).st.invalidRetryCount = 1) := by
  refine ⟨?_, ?_, by decide, by decide, by decide, by decide⟩
  · intro recur env modelToUse boundedTurns st orc pre post hcont hadd hpre
    obtain ⟨ots, oac, ort, orn, ons⟩ := orc
    simp only at hadd
    subst hadd
    induction pre with
    | nil =>
      simp only [List.nil_append, List.map_nil, runEventLoop, popD]
      rw [hcont]
      simp
    | cons e rest ih =>
      have he : e = TEvent.contentEvent := hpre e (List.mem_cons_self e rest)
      subst he
      rw [List.cons_append]
      simp only [runEventLoop, popD]
      rw [ih (fun e hm => hpre e (List.mem_cons_of_mem _ hm))]
      simp [TEvent.toS]
  · intro recur env modelToUse boundedTurns st orc pre post hcont hadd hpre
    obtain ⟨ots, oac, ort, orn, ons⟩ := orc
    simp only at hadd
    subst hadd
    induction pre with
    | nil =>
      simp only [List.nil_append, List.map_nil, runEventLoop, popD]
      rw [hcont]
      simp
    | cons e rest ih =>
      have he : e = TEvent.contentEvent := hpre e (List.mem_cons_self e rest)
      subst he
      rw [List.cons_append]
      simp only [runEventLoop, popD]
      rw [ih (fun e hm => hpre e (List.mem_cons_of_mem _ hm))]
      simp [TEvent.toS]

theorem C8_witness :
    runEventLoop (fun st orc _ _ _ => ⟨[], [], st, orc, true⟩) exEnvBase "model-x" 10 true
        exStateBase invalidTwiceOracle
        [TEvent.contentEvent, TEvent.invalidStream, TEvent.contentEvent]
      = ⟨[SEvent.contentEvent, SEvent.invalidStream],
         [LogEvent.contentRetryFailure 4 "model-x"], exStateBase, invalidTwiceOracle,
         true, LoopExit.earlyReturn⟩
    ∧ runEventLoop (fun st orc _ _ _ => ⟨[], [], st, orc, true⟩) exEnvBase "model-x" 10 false
        exStateBase invalidTwiceOracle [TEvent.invalidStream]
      = ⟨[SEvent.invalidStream], [],
         { exStateBase with invalidRetryCount := 1 }, invalidTwiceOracle,
         true, LoopExit.earlyReturn⟩ := by
  constructor
  · have h := C8_invalid_stream_retry_once_then_terminal.1
      (fun st orc _ _ _ => ⟨[], [], st, orc, true⟩) exEnvBase "model-x" 10
      exStateBase invalidTwiceOracle [TEvent.contentEvent] [TEvent.contentEvent]
      (by decide) (by decide) (by decide)
    simpa using h
  · have h := C8_invalid_stream_retry_once_then_terminal.2.1
      (fun st orc _ _ _ => ⟨[], [], st, orc, true⟩) exEnvBase "model-x" 10
      exStateBase invalidTwiceOracle [] []
      (by decide) (by decide) (by decide)
    simpa using h

theorem entryState_ghost (st : SessionState) (prompt_id : String) :
    (entryState st prompt_id).modelCallCount = st.modelCallCount
    ∧ (entryState st prompt_id).routerCallCount = st.routerCallCount
    ∧ (entryState st prompt_id).invalidRetryCount = st.invalidRetryCount
    ∧ (entryState st prompt_id).lastPromptId = prompt_id
    ∧ (entryState st prompt_id).sessionTurnCount = st.sessionTurnCount + 1
    ∧ (entryState st prompt_id).lastPromptTokenCount = st.lastPromptTokenCount := by
  simp only [entryState, resetSequenceIfNeeded]
  split
  · rename_i h
    simp
  · rename_i h
    push_neg at h
    simp [h]

theorem tryCompressChat_ghost (env : Env) (st : SessionState) (prompt_id : String)
    (force : Bool) :
    (tryCompressChat env st prompt_id force).2.modelCallCount = st.modelCallCount
    ∧ (tryCompressChat env st prompt_id force).2.routerCallCount = st.routerCallCount
    ∧ (tryCompressChat env st prompt_id force).2.invalidRetryCount = st.invalidRetryCount
    ∧ (tryCompressChat env st prompt_id force).2.currentSequenceModel
        = st.currentSequenceModel
    ∧ (tryCompressChat env st prompt_id force).2.lastPromptId = st.lastPromptId
    ∧ (tryCompressChat env st prompt_id force).2.sessionTurnCount = st.sessionTurnCount := by
  simp only [tryCompressChat, startChat]
  split
  · simp
  · split
    · simp
    · split
      · simp
      · split <;> simp

theorem contextInjection_ghost (env : Env) (st : SessionState) :
    (contextInjection env st).modelCallCount = st.modelCallCount
    ∧ (contextInjection env st).routerCallCount = st.routerCallCount
    ∧ (contextInjection env st).invalidRetryCount = st.invalidRetryCount
    ∧ (contextInjection env st).currentSequenceModel = st.currentSequenceModel
    ∧ (contextInjection env st).lastPromptId = st.lastPromptId
    ∧ (contextInjection env st).sessionTurnCount = st.sessionTurnCount
    ∧ (contextInjection env st).lastPromptTokenCount = st.lastPromptTokenCount := by
  simp only [contextInjection]
  split
  · split <;> simp
  · simp

theorem preparedState_ghost (env : Env) (st : SessionState) (prompt_id : String) :
    (preparedState env st prompt_id).1.modelCallCount = st.modelCallCount
    ∧ (preparedState env st prompt_id).1.routerCallCount = st.routerCallCount
    ∧ (preparedState env st prompt_id).1.invalidRetryCount = st.invalidRetryCount
    ∧ (preparedState env st prompt_id).1.currentSequenceModel = st.currentSequenceModel
    ∧ (preparedState env st prompt_id).1.lastPromptId = st.lastPromptId
    ∧ (preparedState env st prompt_id).1.sessionTurnCount = st.sessionTurnCount := by
  obtain ⟨c1, c2, c3, c4, c5, c6⟩ := tryCompressChat_ghost env st prompt_id false
  have hmem : ∀ (s : SessionState),
      (if s.lastKnownChatUserMemory ≠ some env.userMemory then
        { s with lastKnownChatUserMemory := some env.userMemory } else s).modelCallCount
          = s.modelCallCount
      ∧ (if s.lastKnownChatUserMemory ≠ some env.userMemory then
        { s with lastKnownChatUserMemory := some env.userMemory } else s).routerCallCount
          = s.routerCallCount
      ∧ (if s.lastKnownChatUserMemory ≠ some env.userMemory then
        { s with lastKnownChatUserMemory := some env.userMemory } else s).invalidRetryCount
          = s.invalidRetryCount
      ∧ (if s.lastKnownChatUserMemory ≠ some env.userMemory then
        { s with lastKnownChatUserMemory := some env.userMemory } else s).currentSequenceModel
          = s.currentSequenceModel
      ∧ (if s.lastKnownChatUserMemory ≠ some env.userMemory then
        { s with lastKnownChatUserMemory := some env.userMemory } else s).lastPromptId
          = s.lastPromptId
      ∧ (if s.lastKnownChatUserMemory ≠ some env.userMemory then
        { s with lastKnownChatUserMemory := some env.userMemory } else s).sessionTurnCount
          = s.sessionTurnCount := by
    intro s; split <;> simp
  obtain ⟨m1, m2, m3, m4, m5, m6⟩ := hmem (tryCompressChat env st prompt_id false).2
  obtain ⟨i1, i2, i3, i4, i5, i6, -⟩ := contextInjection_ghost env
    (if (tryCompressChat env st prompt_id false).2.lastKnownChatUserMemory
        ≠ some env.userMemory then
      { (tryCompressChat env st prompt_id false).2 with
          lastKnownChatUserMemory := some env.userMemory }
    else (tryCompressChat env st prompt_id false).2)
  refine ⟨?_, ?_, ?_, ?_, ?_, ?_⟩ <;>
    simp only [preparedState] <;>
    first
    | rw [i1, m1, c1]
    | rw [i2, m2, c2]
    | rw [i3, m3, c3]
    | rw [i4, m4, c4]
    | rw [i5, m5, c5]
    | rw [i6, m6, c6]

theorem runEventLoop_finished_st
    (recur : SessionState → Oracle → Request → Int → Bool → StreamOut)
    (env : Env) (m : String) (b : Int) (retry : Bool) :
    ∀ (evs : List TEvent) (st : SessionState) (orc : Oracle),
      (runEventLoop recur env m b retry st orc evs).exitKind = LoopExit.finished →
      (runEventLoop recur env m b retry st orc evs).st = st := by
  intro evs
  induction evs with
  | nil => intro st orc _; rfl
  | cons e rest ih =>
    intro st orc h
    cases e with
    | invalidStream =>
      simp only [runEventLoop] at h ⊢
      by_cases hp : (popD orc.addAndCheck false).1 = true
      · rw [if_pos hp] at h; simp at h
      · rw [if_neg hp] at h ⊢
        by_cases hc : env.continueOnFailedApiCall = true
        · rw [if_pos hc] at h
          split at h <;> simp at h
        · rw [if_neg hc] at h ⊢
          exact ih st _ h
    | errorEvent =>
      simp only [runEventLoop] at h ⊢
      by_cases hp : (popD orc.addAndCheck false).1 = true
      · rw [if_pos hp] at h; simp at h
      · rw [if_neg hp] at h; simp at h
    | contentEvent =>
      simp only [runEventLoop] at h ⊢
      by_cases hp : (popD orc.addAndCheck false).1 = true
      · rw [if_pos hp] at h; simp at h
      · rw [if_neg hp] at h ⊢
        exact ih st _ h

theorem runEventLoop_modelCall_le
    (recur : SessionState → Oracle → Request → Int → Bool → StreamOut)
    (env : Env) (m : String) (b : Int) (retry : Bool)
    (Hrec : ∀ (st : SessionState) (orc : Oracle) (req : Request) (r : Bool),
      st.modelCallCount ≤ (recur st orc req (b - 1) r).st.modelCallCount) :
    ∀ (evs : List TEvent) (st : SessionState) (orc : Oracle),
      st.modelCallCount ≤ (runEventLoop recur env m b retry st orc evs).st.modelCallCount := by
  intro evs
  induction evs with
  | nil => intro st orc; simp [runEventLoop]
  | cons e rest ih =>
    intro st orc
    cases e with
    | invalidStream =>
      simp only [runEventLoop]
      split
      · simp
      · split
        · split
          · simp
          · have h := Hrec { st with invalidRetryCount := st.invalidRetryCount + 1 }
              { orc with addAndCheck := (popD orc.addAndCheck false).2 }
              (Request.parts [Part.text "System: Please continue."]) true
            simpa using h
        · exact ih st _
    | errorEvent =>
      simp only [runEventLoop]
      split
      · simp
      · simp
    | contentEvent =>
      simp only [runEventLoop]
      split
      · simp
      · exact ih st _

theorem sendMessageStream_succ (env : Env) (f : Nat) (st : SessionState) (orc : Oracle)
    (req : Request) (pid : String) (turns : Int) (retry : Bool) :
    sendMessageStream env (f + 1) st orc req pid turns retry
      = sendBody (fun st1 orc1 req1 t1 r1 => sendMessageStream env f st1 orc1 req1 pid t1 r1)
          env st orc req pid turns retry := rfl

theorem boundedTurnsOf_le (t : Int) : boundedTurnsOf t ≤ MAX_TURNS := by
  rw [boundedTurnsOf]
  split <;> omega

theorem boundedTurnsOf_nonneg (t : Int) (h : 0 ≤ t) : 0 ≤ boundedTurnsOf t := by
  rw [boundedTurnsOf, MAX_TURNS]
  split <;> omega

theorem boundedTurnsOf_pred (t : Int) :
    boundedTurnsOf (boundedTurnsOf t - 1) = boundedTurnsOf t - 1 := by
  have h := boundedTurnsOf_le t
  rw [MAX_TURNS] at h
  rw [boundedTurnsOf, MAX_TURNS]
  rw [if_pos (by omega)]

theorem selectModel_ghost (st : SessionState) (orc : Oracle) :
    (selectModel st orc).2.1.modelCallCount = st.modelCallCount
    ∧ (selectModel st orc).2.1.invalidRetryCount = st.invalidRetryCount
    ∧ (selectModel st orc).2.1.lastPromptId = st.lastPromptId
    ∧ (selectModel st orc).2.1.sessionTurnCount = st.sessionTurnCount
    ∧ st.routerCallCount ≤ (selectModel st orc).2.1.routerCallCount
    ∧ (selectModel st orc).2.1.routerCallCount ≤ st.routerCallCount + 1 := by
  simp only [selectModel]
  split <;> simp

theorem afterRun_modelCall_le
    (recur : SessionState → Oracle → Request → Int → Bool → StreamOut)
    (env : Env) (ce : List SEvent) (pid : String) (b : Int) (retry : Bool)
    (m : String) (run : TurnRun)
    (Hrec : ∀ (st : SessionState) (orc : Oracle) (req : Request) (r : Bool),
      st.modelCallCount ≤ (recur st orc req (b - 1) r).st.modelCallCount)
    (st : SessionState) (orc : Oracle) :
    st.modelCallCount ≤ (afterRun recur env ce pid b retry m run st orc).st.modelCallCount := by
  have hloop := runEventLoop_modelCall_le recur env m b retry Hrec run.events st orc
  simp only [afterRun]
  split
  · exact hloop
  · rename_i heq
    have hst := runEventLoop_finished_st recur env m b retry run.events st orc heq
    split
    · split
      · exact hloop
      · split
        · exact hloop
        · split
          · refine le_trans
              (le_of_eq (congrArg SessionState.modelCallCount hst.symm)) (Hrec _ _ _ _)
          · exact hloop
    · exact hloop

theorem runEventLoop_modelCall_bound
    (recur : SessionState → Oracle → Request → Int → Bool → StreamOut)
    (env : Env) (m : String) (b : Int) (retry : Bool) (K : Nat)
    (Hrec : ∀ (st : SessionState) (orc : Oracle) (req : Request) (r : Bool),
      (recur st orc req (b - 1) r).st.modelCallCount ≤ st.modelCallCount + K) :
    ∀ (evs : List TEvent) (st : SessionState) (orc : Oracle),
      (runEventLoop recur env m b retry st orc evs).st.modelCallCount
        ≤ st.modelCallCount + K := by
  intro evs
  induction evs with
  | nil => intro st orc; simp [runEventLoop]
  | cons e rest ih =>
    intro st orc
    cases e with
    | invalidStream =>
      simp only [runEventLoop]
      split
      · simp
      · split
        · split
          · simp
          · have h := Hrec { st with invalidRetryCount := st.invalidRetryCount + 1 }
              { orc with addAndCheck := (popD orc.addAndCheck false).2 }
              (Request.parts [Part.text "System: Please continue."]) true
            simpa using h
        · exact ih st _
    | errorEvent =>
      simp only [runEventLoop]
      split
      · simp
      · simp
    | contentEvent =>
      simp only [runEventLoop]
      split
      · simp
      · exact ih st _

theorem afterRun_modelCall_bound
    (recur : SessionState → Oracle → Request → Int → Bool → StreamOut)
    (env : Env) (ce : List SEvent) (pid : String) (b : Int) (retry : Bool)
    (m : String) (run : TurnRun) (K : Nat)
    (Hrec : ∀ (st : SessionState) (orc : Oracle) (req : Request) (r : Bool),
      (recur st orc req (b - 1) r).st.modelCallCount ≤ st.modelCallCount + K)
    (st : SessionState) (orc : Oracle) :
    (afterRun recur env ce pid b retry m run st orc).st.modelCallCount
      ≤ st.modelCallCount + K := by
  have hloop := runEventLoop_modelCall_bound recur env m b retry K Hrec run.events st orc
  simp only [afterRun]
  split
  · exact hloop
  · rename_i heq
    have hst := runEventLoop_finished_st recur env m b retry run.events st orc heq
    split
    · split
      · exact hloop
      · split
        · exact hloop
        · split
          · refine le_trans (Hrec _ _ _ _) (by rw [hst])
          · exact hloop
    · exact hloop

theorem sendBody_modelCall_le
    (recur : SessionState → Oracle → Request → Int → Bool → StreamOut)
    (env : Env) (st0 : SessionState) (orc0 : Oracle) (req : Request)
    (pid : String) (turns : Int) (retry : Bool)
    (Hrec : ∀ (st : SessionState) (orc : Oracle) (req1 : Request) (r : Bool),
      st.modelCallCount
        ≤ (recur st orc req1 (boundedTurnsOf turns - 1) r).st.modelCallCount) :
    st0.modelCallCount
      ≤ (sendBody recur env st0 orc0 req pid turns retry).st.modelCallCount := by
  have hentry := (entryState_ghost st0 pid).1
  have hprep := (preparedState_ghost env (entryState st0 pid) pid).1
  have hsel := (selectModel_ghost (preparedState env (entryState st0 pid) pid).1
    { orc0 with turnStarted := (popD orc0.turnStarted false).2 }).1
  simp only [sendBody]
  split
  · simp only
    omega
  · split
    · simp only
      omega
    · split
      · simp only
        omega
      · split
        · simp only
          omega
        · refine le_trans ?_ (afterRun_modelCall_le recur env _ pid
            (boundedTurnsOf turns) retry _ _ Hrec _ _)
          simp only
          rw [hsel, hprep, hentry]
          omega

theorem sendBody_modelCall_bound
    (recur : SessionState → Oracle → Request → Int → Bool → StreamOut)
    (env : Env) (st0 : SessionState) (orc0 : Oracle) (req : Request)
    (pid : String) (turns : Int) (retry : Bool)
    (hturns : 0 ≤ turns)
    (Hrec : 1 ≤ boundedTurnsOf turns →
      ∀ (st : SessionState) (orc : Oracle) (req1 : Request) (r : Bool),
      (recur st orc req1 (boundedTurnsOf turns - 1) r).st.modelCallCount
        ≤ st.modelCallCount + (boundedTurnsOf turns - 1).toNat) :
    (sendBody recur env st0 orc0 req pid turns retry).st.modelCallCount
      ≤ st0.modelCallCount + (boundedTurnsOf turns).toNat := by
  have hentry := (entryState_ghost st0 pid).1
  have hprep := (preparedState_ghost env (entryState st0 pid) pid).1
  have hsel := (selectModel_ghost (preparedState env (entryState st0 pid) pid).1
    { orc0 with turnStarted := (popD orc0.turnStarted false).2 }).1
  simp only [sendBody]
  split
  · simp only
    omega
  · split
    · simp only
      omega
    · split
      · simp only
        omega
      · rename_i hcap hb0 hnone
        have hb1 : 1 ≤ boundedTurnsOf turns := by
          have := boundedTurnsOf_nonneg turns hturns
          omega
        split
        · simp only
          omega
        · refine le_trans (afterRun_modelCall_bound recur env _ pid
            (boundedTurnsOf turns) retry _ _ ((boundedTurnsOf turns - 1).toNat)
            (Hrec hb1) _ _) ?_
          simp only
          rw [hsel, hprep, hentry]
          omega

theorem sendMessageStream_modelCall_le (env : Env) : ∀ (fuel : Nat) (st : SessionState)
    (orc : Oracle) (req : Request) (pid : String) (turns : Int) (retry : Bool),
    st.modelCallCount
      ≤ (sendMessageStream env fuel st orc req pid turns retry).st.modelCallCount := by
  intro fuel
  induction fuel with
  | zero => intro st _ _ _ _ _; exact Nat.le_refl _
  | succ f ih =>
    intro st orc req pid turns retry
    rw [sendMessageStream_succ]
    exact sendBody_modelCall_le _ env st orc req pid turns retry
      (fun st1 orc1 req1 r1 => ih st1 orc1 req1 pid (boundedTurnsOf turns - 1) r1)

theorem sendMessageStream_modelCall_bound (env : Env) : ∀ (fuel : Nat) (st : SessionState)
    (orc : Oracle) (req : Request) (pid : String) (turns : Int) (retry : Bool),
    0 ≤ turns →
    (sendMessageStream env fuel st orc req pid turns retry).st.modelCallCount
      ≤ st.modelCallCount + (boundedTurnsOf turns).toNat := by
  intro fuel
  induction fuel with
  | zero => intro st _ _ _ _ _ _; exact Nat.le_add_right _ _
  | succ f ih =>
    intro st orc req pid turns retry hturns
    rw [sendMessageStream_succ]
    refine sendBody_modelCall_bound _ env st orc req pid turns retry hturns ?_
    intro hb1 st1 orc1 req1 r1
    have h := ih st1 orc1 req1 pid (boundedTurnsOf turns - 1) r1 (by omega)
    rwa [boundedTurnsOf_pred] at h

theorem resetSequence_same (st : SessionState) (pid : String) (h : st.lastPromptId = pid) :
    resetSequenceIfNeeded st pid = st := by
  simp [resetSequenceIfNeeded, h]

theorem resetSequence_diff (st : SessionState) (pid : String) (h : st.lastPromptId ≠ pid) :
    (resetSequenceIfNeeded st pid).currentSequenceModel = none := by
  simp [resetSequenceIfNeeded, h]

theorem entryState_same_pid (st : SessionState) (pid : String) (h : st.lastPromptId = pid) :
    entryState st pid = { st with sessionTurnCount := st.sessionTurnCount + 1 } := by
  rw [entryState, resetSequence_same st pid h]

theorem entryState_sticky_none (st : SessionState) (pid : String)
    (h : st.lastPromptId ≠ pid ∨ st.currentSequenceModel = none) :
    (entryState st pid).currentSequenceModel = none := by
  rcases h with h | h
  · rw [entryState]
    simp [resetSequence_diff st pid h]
  · by_cases hp : st.lastPromptId = pid
    · rw [entryState_same_pid st pid hp]
      exact h
    · rw [entryState]
      simp [resetSequence_diff st pid hp]

theorem selectModel_some (st : SessionState) (orc : Oracle) (m : String)
    (h : st.currentSequenceModel = some m) :
    selectModel st orc = (m, st, orc) := by
  simp [selectModel, h]

theorem selectModel_none (st : SessionState) (orc : Oracle)
    (h : st.currentSequenceModel = none) :
    (selectModel st orc).2.1.routerCallCount = st.routerCallCount + 1
    ∧ (selectModel st orc).2.1.currentSequenceModel = some (selectModel st orc).1
    ∧ (selectModel st orc).2.1.lastPromptId = st.lastPromptId := by
  simp [selectModel, h]

theorem runEventLoop_sticky
    (recur : SessionState → Oracle → Request → Int → Bool → StreamOut)
    (env : Env) (mdl : String) (b : Int) (retry : Bool) (m : String) (pid : String)
    (Hrec : ∀ (st : SessionState) (orc : Oracle) (req : Request) (r : Bool),
      st.currentSequenceModel = some m → st.lastPromptId = pid →
      ((recur st orc req (b - 1) r).st.currentSequenceModel = some m
        ∧ (recur st orc req (b - 1) r).st.lastPromptId = pid
        ∧ (recur st orc req (b - 1) r).st.routerCallCount = st.routerCallCount)) :
    ∀ (evs : List TEvent) (st : SessionState) (orc : Oracle),
      st.currentSequenceModel = some m → st.lastPromptId = pid →
      ((runEventLoop recur env mdl b retry st orc evs).st.currentSequenceModel = some m
        ∧ (runEventLoop recur env mdl b retry st orc evs).st.lastPromptId = pid
        ∧ (runEventLoop recur env mdl b retry st orc evs).st.routerCallCount
            = st.routerCallCount) := by
  intro evs
  induction evs with
  | nil => intro st orc h1 h2; exact ⟨h1, h2, rfl⟩
  | cons e rest ih =>
    intro st orc h1 h2
    cases e with
    | invalidStream =>
      simp only [runEventLoop]
      split
      · exact ⟨h1, h2, rfl⟩
      · split
        · split
          · exact ⟨h1, h2, rfl⟩
          · have h := Hrec { st with invalidRetryCount := st.invalidRetryCount + 1 }
              { orc with addAndCheck := (popD orc.addAndCheck false).2 }
              (Request.parts [Part.text "System: Please continue."]) true
              (by simpa using h1) (by simpa using h2)
            simpa using h
        · exact ih st _ h1 h2
    | errorEvent =>
      simp only [runEventLoop]
      split
      · exact ⟨h1, h2, rfl⟩
      · exact ⟨h1, h2, rfl⟩
    | contentEvent =>
      simp only [runEventLoop]
      split
      · exact ⟨h1, h2, rfl⟩
      · exact ih st _ h1 h2

theorem afterRun_sticky
    (recur : SessionState → Oracle → Request → Int → Bool → StreamOut)
    (env : Env) (ce : List SEvent) (pid : String) (b : Int) (retry : Bool)
    (mdl : String) (run : TurnRun) (m : String)
    (Hrec : ∀ (st : SessionState) (orc : Oracle) (req : Request) (r : Bool),
      st.currentSequenceModel = some m → st.lastPromptId = pid →
      ((recur st orc req (b - 1) r).st.currentSequenceModel = some m
        ∧ (recur st orc req (b - 1) r).st.lastPromptId = pid
        ∧ (recur st orc req (b - 1) r).st.routerCallCount = st.routerCallCount))
    (st : SessionState) (orc : Oracle)
    (h1 : st.currentSequenceModel = some m) (h2 : st.lastPromptId = pid) :
    (afterRun recur env ce pid b retry mdl run st orc).st.currentSequenceModel = some m
    ∧ (afterRun recur env ce pid b retry mdl run st orc).st.lastPromptId = pid
    ∧ (afterRun recur env ce pid b retry mdl run st orc).st.routerCallCount
        = st.routerCallCount := by
  have hloop := runEventLoop_sticky recur env mdl b retry m pid Hrec run.events st orc h1 h2
  simp only [afterRun]
  split
  · exact hloop
  · rename_i heq
    have hst := runEventLoop_finished_st recur env mdl b retry run.events st orc heq
    split
    · split
      · exact hloop
      · split
        · exact hloop
        · split
          · have h := Hrec (runEventLoop recur env mdl b retry st orc run.events).st
              { (runEventLoop recur env mdl b retry st orc run.events).orc with
                  nextSpeaker := (popD (runEventLoop recur env mdl b retry
                    st orc run.events).orc.nextSpeaker false).2 }
              (Request.parts [Part.text "Please continue."]) false
              (by rw [hst]; exact h1) (by rw [hst]; exact h2)
            refine ⟨h.1, h.2.1, ?_⟩
            rw [h.2.2, hst]
          · simp only
            exact ⟨hloop.1, hloop.2.1, hloop.2.2⟩
    · exact hloop

theorem sendBody_sticky
    (recur : SessionState → Oracle → Request → Int → Bool → StreamOut)
    (env : Env) (st0 : SessionState) (orc0 : Oracle) (req : Request)
    (pid : String) (turns : Int) (retry : Bool) (m : String)
    (Hrec : ∀ (st : SessionState) (orc : Oracle) (req1 : Request) (r : Bool),
      st.currentSequenceModel = some m → st.lastPromptId = pid →
      ((recur st orc req1 (boundedTurnsOf turns - 1) r).st.currentSequenceModel = some m
        ∧ (recur st orc req1 (boundedTurnsOf turns - 1) r).st.lastPromptId = pid
        ∧ (recur st orc req1 (boundedTurnsOf turns - 1) r).st.routerCallCount
            = st.routerCallCount))
    (hpid : st0.lastPromptId = pid) (hm : st0.currentSequenceModel = some m) :
    (sendBody recur env st0 orc0 req pid turns retry).st.currentSequenceModel = some m
    ∧ (sendBody recur env st0 orc0 req pid turns retry).st.lastPromptId = pid
    ∧ (sendBody recur env st0 orc0 req pid turns retry).st.routerCallCount
        = st0.routerCallCount := by
  have hent := entryState_same_pid st0 pid hpid
  have he1 : (entryState st0 pid).currentSequenceModel = some m := by rw [hent]; exact hm
  have he2 : (entryState st0 pid).lastPromptId = pid := by rw [hent]; exact hpid
  have he3 : (entryState st0 pid).routerCallCount = st0.routerCallCount := by rw [hent]
  obtain ⟨-, p2, -, p4, p5, -⟩ := preparedState_ghost env (entryState st0 pid) pid
  have hp1 : (preparedState env (entryState st0 pid) pid).1.currentSequenceModel = some m := by
    rw [p4]; exact he1
  have hp2 : (preparedState env (entryState st0 pid) pid).1.lastPromptId = pid := by
    rw [p5]; exact he2
  have hp3 : (preparedState env (entryState st0 pid) pid).1.routerCallCount
      = st0.routerCallCount := by rw [p2]; exact he3
  have hsel := selectModel_some (preparedState env (entryState st0 pid) pid).1
    { orc0 with turnStarted := (popD orc0.turnStarted false).2 } m hp1
  simp only [sendBody]
  split
  · exact ⟨he1, he2, he3⟩
  · split
    · exact ⟨he1, he2, he3⟩
    · split
      · exact ⟨he1, he2, he3⟩
      · split
        · exact ⟨hp1, hp2, hp3⟩
        · rw [hsel]
          have h := afterRun_sticky recur env
            (preparedState env (entryState st0 pid) pid).2 pid (boundedTurnsOf turns) retry m
            (popD { orc0 with
              turnStarted := (popD orc0.turnStarted false).2 }.runs ⟨[], false⟩).1
            m Hrec
            { (preparedState env (entryState st0 pid) pid).1 with
                modelCallCount :=
                  (preparedState env (entryState st0 pid) pid).1.modelCallCount + 1 }
            { { orc0 with turnStarted := (popD orc0.turnStarted false).2 } with
                runs := (popD { orc0 with
                  turnStarted := (popD orc0.turnStarted false).2 }.runs ⟨[], false⟩).2 }
            (by simpa using hp1) (by simpa using hp2)
          refine ⟨h.1, h.2.1, ?_⟩
          rw [h.2.2]
          simpa using hp3

theorem sendMessageStream_sticky (env : Env) : ∀ (fuel : Nat) (st : SessionState)
    (orc : Oracle) (req : Request) (pid : String) (turns : Int) (retry : Bool) (m : String),
    st.currentSequenceModel = some m → st.lastPromptId = pid →
    ((sendMessageStream env fuel st orc req pid turns retry).st.currentSequenceModel = some m
      ∧ (sendMessageStream env fuel st orc req pid turns retry).st.lastPromptId = pid
      ∧ (sendMessageStream env fuel st orc req pid turns retry).st.routerCallCount
          = st.routerCallCount) := by
  intro fuel
  induction fuel with
  | zero => intro st orc req pid turns retry m h1 h2; exact ⟨h1, h2, rfl⟩
  | succ f ih =>
    intro st orc req pid turns retry m h1 h2
    rw [sendMessageStream_succ]
    exact sendBody_sticky _ env st orc req pid turns retry m
      (fun st1 orc1 req1 r1 => ih st1 orc1 req1 pid (boundedTurnsOf turns - 1) r1 m)
      h2 h1

theorem runEventLoop_router_le
    (recur : SessionState → Oracle → Request → Int → Bool → StreamOut)
    (env : Env) (mdl : String) (b : Int) (retry : Bool)
    (Hrec : ∀ (st : SessionState) (orc : Oracle) (req : Request) (r : Bool),
      st.routerCallCount ≤ (recur st orc req (b - 1) r).st.routerCallCount) :
    ∀ (evs : List TEvent) (st : SessionState) (orc : Oracle),
      st.routerCallCount ≤ (runEventLoop recur env mdl b retry st orc evs).st.routerCallCount := by
  intro evs
  induction evs with
  | nil => intro st orc; simp [runEventLoop]
  | cons e rest ih =>
    intro st orc
    cases e with
    | invalidStream =>
      simp only [runEventLoop]
      split
      · simp
      · split
        · split
          · simp
          · have h := Hrec { st with invalidRetryCount := st.invalidRetryCount + 1 }
              { orc with addAndCheck := (popD orc.addAndCheck false).2 }
              (Request.parts [Part.text "System: Please continue."]) true
            simpa using h
        · exact ih st _
    | errorEvent =>
      simp only [runEventLoop]
      split
      · simp
      · simp
    | contentEvent =>
      simp only [runEventLoop]
      split
      · simp
      · exact ih st _

theorem afterRun_router_le
    (recur : SessionState → Oracle → Request → Int → Bool → StreamOut)
    (env : Env) (ce : List SEvent) (pid : String) (b : Int) (retry : Bool)
    (mdl : String) (run : TurnRun)
    (Hrec : ∀ (st : SessionState) (orc : Oracle) (req : Request) (r : Bool),
      st.routerCallCount ≤ (recur st orc req (b - 1) r).st.routerCallCount)
    (st : SessionState) (orc : Oracle) :
    st.routerCallCount ≤ (afterRun recur env ce pid b retry mdl run st orc).st.routerCallCount := by
  have hloop := runEventLoop_router_le recur env mdl b retry Hrec run.events st orc
  simp only [afterRun]
  split
  · exact hloop
  · rename_i heq
    have hst := runEventLoop_finished_st recur env mdl b retry run.events st orc heq
    split
    · split
      · exact hloop
      · split
        · exact hloop
        · split
          · refine le_trans
              (le_of_eq (congrArg SessionState.routerCallCount hst.symm)) (Hrec _ _ _ _)
          · exact hloop
    · exact hloop

theorem sendMessageStream_router_le (env : Env) : ∀ (fuel : Nat) (st : SessionState)
    (orc : Oracle) (req : Request) (pid : String) (turns : Int) (retry : Bool),
    st.routerCallCount
      ≤ (sendMessageStream env fuel st orc req pid turns retry).st.routerCallCount := by
  intro fuel
  induction fuel with
  | zero => intro st _ _ _ _ _; exact Nat.le_refl _
  | succ f ih =>
    intro st orc req pid turns retry
    rw [sendMessageStream_succ]
    have hentry := (entryState_ghost st pid).2.1
    have hprep := (preparedState_ghost env (entryState st pid) pid).2.1
    have hsel := (selectModel_ghost (preparedState env (entryState st pid) pid).1
      { orc with turnStarted := (popD orc.turnStarted false).2 }).2.2.2.2.1
    simp only [sendBody]
    split
    · simp only; omega
    · split
      · simp only; omega
      · split
        · simp only; omega
        · split
          · simp only; omega
          · refine le_trans ?_ (afterRun_router_le _ env _ pid
              (boundedTurnsOf turns) retry _ _
              (fun st1 orc1 req1 r1 => ih st1 orc1 req1 pid (boundedTurnsOf turns - 1) r1)
              _ _)
            simp only
            omega

theorem sendBody_router_after_none
    (recur : SessionState → Oracle → Request → Int → Bool → StreamOut)
    (env : Env) (st0 : SessionState) (orc0 : Oracle) (req : Request)
    (pid : String) (turns : Int) (retry : Bool)
    (Hrec : ∀ (m : String) (st : SessionState) (orc : Oracle) (req1 : Request) (r : Bool),
      st.currentSequenceModel = some m → st.lastPromptId = pid →
      ((recur st orc req1 (boundedTurnsOf turns - 1) r).st.currentSequenceModel = some m
        ∧ (recur st orc req1 (boundedTurnsOf turns - 1) r).st.lastPromptId = pid
        ∧ (recur st orc req1 (boundedTurnsOf turns - 1) r).st.routerCallCount
            = st.routerCallCount))
    (hnone : (entryState st0 pid).currentSequenceModel = none) :
    (sendBody recur env st0 orc0 req pid turns retry).st.routerCallCount
      ≤ st0.routerCallCount + 1 := by
  have he3 : (entryState st0 pid).routerCallCount = st0.routerCallCount :=
    (entryState_ghost st0 pid).2.1
  have he2 : (entryState st0 pid).lastPromptId = pid := (entryState_ghost st0 pid).2.2.2.1
  obtain ⟨-, p2, -, p4, p5, -⟩ := preparedState_ghost env (entryState st0 pid) pid
  have hp1 : (preparedState env (entryState st0 pid) pid).1.currentSequenceModel = none := by
    rw [p4]; exact hnone
  obtain ⟨s1, s2, s3⟩ := selectModel_none (preparedState env (entryState st0 pid) pid).1
    { orc0 with turnStarted := (popD orc0.turnStarted false).2 } hp1
  simp only [sendBody]
  split
  · simp only; omega
  · split
    · simp only; omega
    · split
      · simp only; omega
      · split
        · simp only; omega
        · have h := afterRun_sticky recur env
            (preparedState env (entryState st0 pid) pid).2 pid (boundedTurnsOf turns) retry
            (selectModel (preparedState env (entryState st0 pid) pid).1
              { orc0 with turnStarted := (popD orc0.turnStarted false).2 }).1
            (popD (selectModel (preparedState env (entryState st0 pid) pid).1
              { orc0 with turnStarted := (popD orc0.turnStarted false).2 }).2.2.runs
              ⟨[], false⟩).1
            (selectModel (preparedState env (entryState st0 pid) pid).1
              { orc0 with turnStarted := (popD orc0.turnStarted false).2 }).1
            (Hrec _)
            { (selectModel (preparedState env (entryState st0 pid) pid).1
                { orc0 with turnStarted := (popD orc0.turnStarted false).2 }).2.1 with
                modelCallCount :=
                  (selectModel (preparedState env (entryState st0 pid) pid).1
                    { orc0 with
                      turnStarted := (popD orc0.turnStarted false).2 }).2.1.modelCallCount
                    + 1 }
            { (selectModel (preparedState env (entryState st0 pid) pid).1
                { orc0 with turnStarted := (popD orc0.turnStarted false).2 }).2.2 with
                runs := (popD (selectModel (preparedState env (entryState st0 pid) pid).1
                  { orc0 with turnStarted := (popD orc0.turnStarted false).2 }).2.2.runs
                  ⟨[], false⟩).2 }
            (by simpa using s2) (by
              show (selectModel _ _).2.1.lastPromptId = pid
              rw [s3, p5]
              exact he2)
          refine le_trans (le_of_eq h.2.2) ?_
          simp only
          rw [s1, p2, he3]

theorem sendBody_router_on_call
    (recur : SessionState → Oracle → Request → Int → Bool → StreamOut)
    (env : Env) (st0 : SessionState) (orc0 : Oracle) (req : Request)
    (pid : String) (turns : Int) (retry : Bool)
    (Hmono : ∀ (st : SessionState) (orc : Oracle) (req1 : Request) (r : Bool),
      st.routerCallCount
        ≤ (recur st orc req1 (boundedTurnsOf turns - 1) r).st.routerCallCount)
    (hnone : (entryState st0 pid).currentSequenceModel = none)
    (hcall : st0.modelCallCount
      < (sendBody recur env st0 orc0 req pid turns retry).st.modelCallCount) :
    st0.routerCallCount
      < (sendBody recur env st0 orc0 req pid turns retry).st.routerCallCount := by
  have he1 : (entryState st0 pid).modelCallCount = st0.modelCallCount :=
    (entryState_ghost st0 pid).1
  have he3 : (entryState st0 pid).routerCallCount = st0.routerCallCount :=
    (entryState_ghost st0 pid).2.1
  obtain ⟨p1, p2, -, p4, -, -⟩ := preparedState_ghost env (entryState st0 pid) pid
  have hp1 : (preparedState env (entryState st0 pid) pid).1.currentSequenceModel = none := by
    rw [p4]; exact hnone
  obtain ⟨s1, -, -⟩ := selectModel_none (preparedState env (entryState st0 pid) pid).1
    { orc0 with turnStarted := (popD orc0.turnStarted false).2 } hp1
  revert hcall
  simp only [sendBody]
  split
  · intro hcall
    exact absurd (by simpa using hcall) (by simp [he1])
  · split
    · intro hcall
      exact absurd (by simpa using hcall) (by simp [he1])
    · split
      · intro hcall
        exact absurd (by simpa using hcall) (by simp [he1])
      · split
        · intro hcall
          exact absurd (by simpa using hcall) (by simp [p1, he1])
        · intro _
          refine lt_of_lt_of_le ?_ (afterRun_router_le recur env _ pid
            (boundedTurnsOf turns) retry _ _
            (fun st1 orc1 req1 r1 => Hmono st1 orc1 req1 r1) _ _)
          simp only
          rw [s1, p2, he3]
          omega

theorem sendMessageStream_router_once (env : Env) : ∀ (fuel : Nat) (st : SessionState)
    (orc : Oracle) (req : Request) (pid : String) (turns : Int) (retry : Bool),
    (st.lastPromptId ≠ pid ∨ st.currentSequenceModel = none) →
    (sendMessageStream env fuel st orc req pid turns retry).st.routerCallCount
      ≤ st.routerCallCount + 1 := by
  intro fuel
  induction fuel with
  | zero => intro st _ _ _ _ _ _; exact Nat.le_add_right _ _
  | succ f ih =>
    intro st orc req pid turns retry h
    rw [sendMessageStream_succ]
    refine sendBody_router_after_none _ env st orc req pid turns retry ?_
      (entryState_sticky_none st pid h)
    intro m st1 orc1 req1 r1 h1 h2
    exact sendMessageStream_sticky env f st1 orc1 req1 pid
      (boundedTurnsOf turns - 1) r1 m h1 h2

theorem string_length_foldl_append : ∀ (l : List String) (s : String),
    (l.foldl (fun a b => a ++ b) s).length = s.length + (l.map String.length).sum := by
  intro l
  induction l with
  | nil => intro s; simp
  | cons a rest ih =>
    intro s
    simp only [List.foldl_cons, List.map_cons, List.sum_cons]
    rw [ih (s ++ a), String.length_append]
    omega

theorem string_length_join (l : List String) :
    (String.join l).length = (l.map String.length).sum := by
  rw [String.join, string_length_foldl_append]
  simp

theorem estimatedRequestTokens_replicate_a (n : Nat) :
    estimatedRequestTokens (Request.str (String.mk (List.replicate n 'a')))
      = (n + 2) / 4 := by
  have hq : (jsonQuote (String.mk (List.replicate n 'a'))).length = n + 2 := by
    rw [jsonQuote, String.length_append, String.length_append, string_length_join]
    have h1 : (String.mk (List.replicate n 'a')).data = List.replicate n 'a' := rfl
    rw [h1, List.map_replicate, List.map_replicate]
    have h2 : (jsonEscapeChar 'a').length = 1 := by decide
    rw [h2]
    simp
    have h3 : ("\"" : String).length = 1 := rfl
    omega
  rw [estimatedRequestTokens, Request.jsonLength, hq]

theorem preparedState_events (env : Env) (st : SessionState) (prompt_id : String) :
    (preparedState env st prompt_id).2 = []
    ∨ ∃ info, (preparedState env st prompt_id).2 = [SEvent.chatCompressed info] := by
  simp only [preparedState]
  split
  · right; exact ⟨_, rfl⟩
  · left; rfl

theorem sendBody_overflow
    (recur : SessionState → Oracle → Request → Int → Bool → StreamOut)
    (env : Env) (st0 : SessionState) (orc0 : Oracle) (req : Request)
    (pid : String) (turns : Int) (retry : Bool)
    (hcap : sessionCapHit env (entryState st0 pid) = false)
    (hb : ¬ boundedTurnsOf turns = 0)
    (ev : SEvent)
    (hov : contextWindowCheck env (entryState st0 pid) req = some ev) :
    sendBody recur env st0 orc0 req pid turns retry
      = ⟨[ev], [], entryState st0 pid, orc0, true⟩ := by
  simp only [sendBody]
  rw [if_neg (by rw [hcap]; simp), if_neg hb]
  simp only [hov]

theorem sendBody_not_overflow
    (recur : SessionState → Oracle → Request → Int → Bool → StreamOut)
    (env : Env) (st0 : SessionState) (orc0 : Oracle) (req : Request)
    (pid : String) (turns : Int) (retry : Bool)
    (Hmono : ∀ (st : SessionState) (orc : Oracle) (req1 : Request) (r : Bool),
      st.modelCallCount
        ≤ (recur st orc req1 (boundedTurnsOf turns - 1) r).st.modelCallCount)
    (hov : contextWindowCheck env (entryState st0 pid) req = none) :
    ¬((sendBody recur env st0 orc0 req pid turns retry).events.head?
        = some (SEvent.contextWindowWillOverflow (estimatedRequestTokens req)
            (remainingTokens env (entryState st0 pid)))
      ∧ (sendBody recur env st0 orc0 req pid turns retry).st.modelCallCount
        = st0.modelCallCount) := by
  rintro ⟨h1, h2⟩
  revert h1 h2
  simp only [sendBody]
  split
  · intro h1 _
    simp at h1
  · split
    · intro h1 _
      simp at h1
    · split
      · rename_i ev heq
        rw [hov] at heq
        exact absurd heq (by simp)
      · split
        · intro h1 _
          rcases preparedState_events env (entryState st0 pid) pid with he | ⟨info, he⟩ <;>
            rw [he] at h1 <;> simp at h1
        · intro _ h2
          refine absurd h2 (ne_of_gt ?_)
          refine lt_of_lt_of_le ?_ (afterRun_modelCall_le recur env _ pid
            (boundedTurnsOf turns) retry _ _ Hmono _ _)
          have hsel := (selectModel_ghost (preparedState env (entryState st0 pid) pid).1
            { orc0 with turnStarted := (popD orc0.turnStarted false).2 }).1
          have hprep := (preparedState_ghost env (entryState st0 pid) pid).1
          have hent := (entryState_ghost st0 pid).1
          simp only
          rw [hsel, hprep, hent]
          omega

/-- C5: with the session-turn cap not hit and the clamped turn bound
nonzero, sendMessageStream emits the terminal ContextWindowWillOverflow
event carrying the estimate and the remaining budget (and performs no
model call) exactly when estimate > 0.95 × remaining, where the estimate
is floor(JSON-serialized request length / 4) and the remaining budget is
the model token limit minus the last observed prompt token count; in
particular estimate 9500 against remaining budget 10000 emits no overflow
event while estimate 9501 does. -/
theorem C5_context_window_guard :
    (∀ (env : Env) (fuel : Nat) (st : SessionState) (orc : Oracle) (req : Request)
        (pid : String) (turns : Int) (retry : Bool),
      0 < fuel →
      sessionCapHit env (entryState st pid) = false →
      ¬ boundedTurnsOf turns = 0 →
      ((((sendMessageStream env fuel st orc req pid turns retry).events.head?
            = some (SEvent.contextWindowWillOverflow (estimatedRequestTokens req)
                (remainingTokens env (entryState st pid)))
          ∧ (sendMessageStream env fuel st orc req pid turns retry).st.modelCallCount
            = st.modelCallCount)
          ↔ (estimatedRequestTokens req : ℚ)
              > (remainingTokens env (entryState st pid) : ℚ) * 0.95)
        ∧ ((estimatedRequestTokens req : ℚ)
              > (remainingTokens env (entryState st pid) : ℚ) * 0.95 →
            sendMessageStream env fuel st orc req pid turns retry
              = ⟨[SEvent.contextWindowWillOverflow (estimatedRequestTokens req)
                  (remainingTokens env (entryState st pid))], [],
                 entryState st pid, orc, true⟩)))
    ∧ (∀ (env : Env) (st : SessionState) (req : Request),
        estimatedRequestTokens req = 9500 → remainingTokens env st = 10000 →
        contextWindowCheck env st req = none)
    ∧ (∀ (env : Env) (st : SessionState) (req : Request),
        estimatedRequestTokens req = 9501 → remainingTokens env st = 10000 →
        contextWindowCheck env st req
          = some (SEvent.contextWindowWillOverflow 9501 10000)) := by
  refine ⟨?_, ?_, ?_⟩
  · intro env fuel st orc req pid turns retry hfuel hcap hb
    cases fuel with
    | zero => exact absurd hfuel (by omega)
    | succ f =>
      rw [sendMessageStream_succ]
      have hover : ∀ h : (estimatedRequestTokens req : ℚ)
            > (remainingTokens env (entryState st pid) : ℚ) * 0.95,
          contextWindowCheck env (entryState st pid) req
            = some (SEvent.contextWindowWillOverflow (estimatedRequestTokens req)
                (remainingTokens env (entryState st pid))) := by
        intro h
        have ht : overflowTriggered (estimatedRequestTokens req)
            (remainingTokens env (entryState st pid)) = true :=
          (overflowTriggered_iff _ _).mpr h
        simp only [contextWindowCheck]
        rw [if_pos ht]
      constructor
      · constructor
        · rintro ⟨h1, h2⟩
          by_contra hq
          have hovt : overflowTriggered (estimatedRequestTokens req)
              (remainingTokens env (entryState st pid)) = false := by
            rw [← Bool.not_eq_true]
            intro hc
            exact hq ((overflowTriggered_iff _ _).mp hc)
          have hov : contextWindowCheck env (entryState st pid) req = none := by
            simp only [contextWindowCheck]
            rw [if_neg (by rw [hovt]; simp)]
          exact sendBody_not_overflow _ env st orc req pid turns retry
            (fun st1 orc1 req1 r1 => sendMessageStream_modelCall_le env f st1 orc1 req1
              pid (boundedTurnsOf turns - 1) r1) hov ⟨h1, h2⟩
        · intro hq
          rw [sendBody_overflow _ env st orc req pid turns retry hcap hb _ (hover hq)]
          exact ⟨rfl, (entryState_ghost st pid).1⟩
      · intro hq
        exact sendBody_overflow _ env st orc req pid turns retry hcap hb _ (hover hq)
  · intro env st req h1 h2
    simp only [contextWindowCheck, h1, h2]
    decide
  · intro env st req h1 h2
    simp only [contextWindowCheck, h1, h2]
    decide

theorem C5_witness :
    (0 < 3
      ∧ sessionCapHit exEnvBase (entryState exStateBase "p") = false
      ∧ ¬ boundedTurnsOf 10 = 0
      ∧ (((sendMessageStream exEnvBase 3 exStateBase ⟨[], [], ["m"], [], []⟩
              (Request.str "x") "p" 10 false).events.head?
            = some (SEvent.contextWindowWillOverflow
                (estimatedRequestTokens (Request.str "x"))
                (remainingTokens exEnvBase (entryState exStateBase "p")))
          ∧ (sendMessageStream exEnvBase 3 exStateBase ⟨[], [], ["m"], [], []⟩
              (Request.str "x") "p" 10 false).st.modelCallCount
            = exStateBase.modelCallCount)
          ↔ (estimatedRequestTokens (Request.str "x") : ℚ)
              > (remainingTokens exEnvBase (entryState exStateBase "p") : ℚ) * 0.95))
    ∧ (estimatedRequestTokens
          (Request.str (String.mk (List.replicate 37998 'a'))) = 9500
        ∧ remainingTokens overflowEnv exStateBase = 10000
        ∧ contextWindowCheck overflowEnv
            exStateBase (Request.str (String.mk (List.replicate 37998 'a'))) = none)
    ∧ (estimatedRequestTokens
          (Request.str (String.mk (List.replicate 38002 'a'))) = 9501
        ∧ contextWindowCheck overflowEnv
            exStateBase (Request.str (String.mk (List.replicate 38002 'a')))
          = some (SEvent.contextWindowWillOverflow 9501 10000)) := by
  have h9500 : estimatedRequestTokens
      (Request.str (String.mk (List.replicate 37998 'a'))) = 9500 :=
    (estimatedRequestTokens_replicate_a 37998).trans (by norm_num)
  have h9501 : estimatedRequestTokens
      (Request.str (String.mk (List.replicate 38002 'a'))) = 9501 :=
    (estimatedRequestTokens_replicate_a 38002).trans (by norm_num)
  have hrem : remainingTokens overflowEnv exStateBase = 10000 := by decide
  refine ⟨⟨by decide, by decide, by decide, ?_⟩, ⟨h9500, hrem, ?_⟩, ⟨h9501, ?_⟩⟩
  · exact (C5_context_window_guard.1 exEnvBase 3 exStateBase ⟨[], [], ["m"], [], []⟩
      (Request.str "x") "p" 10 false (by decide) (by decide) (by decide)).1
  · exact C5_context_window_guard.2.1 overflowEnv
      exStateBase (Request.str (String.mk (List.replicate 37998 'a'))) h9500 hrem
  · exact C5_context_window_guard.2.2 overflowEnv
      exStateBase (Request.str (String.mk (List.replicate 38002 'a'))) h9501 hrem

/-- C4 (corrected; the original claim quantifies over any integer, but
for NEGATIVE turnsRemaining the zero test of the clamped bound never
fires — the bound counts down through ever more negative values — and the
recursive chain keeps making model calls without limit, see the
counterexample). Amended claim: sendMessageStream clamps its
remaining-turns argument to min(turns, 100) and returns a no-op result
with no model call when the clamped bound is zero; and for every
NONNEGATIVE turnsRemaining the total number of model calls performed
across the full recursive chain is at most min(turnsRemaining, 100), so
the 100-turn ceiling is never exceeded. -/
theorem C4_turn_clamp_and_call_bound :
    (∀ (turns : Int), boundedTurnsOf turns = min turns MAX_TURNS)
    ∧ (∀ (env : Env) (fuel : Nat) (st : SessionState) (orc : Oracle) (req : Request)
        (pid : String) (retry : Bool) (turns : Int),
        0 < fuel →
        sessionCapHit env (entryState st pid) = false →
        boundedTurnsOf turns = 0 →
        sendMessageStream env fuel st orc req pid turns retry
          = ⟨[], [], entryState st pid, orc, true⟩)
    ∧ (∀ (env : Env) (fuel : Nat) (st : SessionState) (orc : Oracle) (req : Request)
        (pid : String) (turns : Int) (retry : Bool),
        0 ≤ turns →
        (sendMessageStream env fuel st orc req pid turns retry).st.modelCallCount
          ≤ st.modelCallCount + (boundedTurnsOf turns).toNat) := by
  refine ⟨boundedTurnsOf_eq_min, ?_, ?_⟩
  · intro env fuel st orc req pid retry turns hfuel hcap hzero
    obtain ⟨f, rfl⟩ := Nat.exists_eq_add_of_lt hfuel
    rw [show 0 + f + 1 = f + 1 by omega, sendMessageStream_succ]
    simp only [sendBody]
    rw [if_neg (by rw [hcap]; simp)]
    rw [if_pos hzero]
  · intro env fuel st orc req pid turns retry hturns
    exact sendMessageStream_modelCall_bound env fuel st orc req pid turns retry hturns

set_option maxRecDepth 100000 in
theorem C4_counterexample :
    (-1 : Int) < 0
    ∧ 100 < (sendMessageStream exEnvBase 101 exStateBase
        ⟨[], [], ["m"], [], List.replicate 101 true⟩
        (Request.str "x") "p" (-1) false).st.modelCallCount := by
  exact ⟨by decide, by decide⟩

theorem C4_witness :
    boundedTurnsOf (-7) = min (-7) MAX_TURNS
    ∧ sendMessageStream exEnvBase 3 exStateBase ⟨[], [], ["m"], [], []⟩
        (Request.str "x") "p" 0 false
      = ⟨[], [], entryState exStateBase "p", ⟨[], [], ["m"], [], []⟩, true⟩
    ∧ (sendMessageStream exEnvBase 3 exStateBase ⟨[], [], ["m"], [], []⟩
        (Request.str "x") "p" 10 false).st.modelCallCount
      ≤ exStateBase.modelCallCount + (boundedTurnsOf 10).toNat := by
  refine ⟨C4_turn_clamp_and_call_bound.1 (-7), ?_, ?_⟩
  · exact C4_turn_clamp_and_call_bound.2.1 exEnvBase 3 exStateBase
      ⟨[], [], ["m"], [], []⟩ (Request.str "x") "p" false 0
      (by decide) (by decide) (by decide)
  · exact C4_turn_clamp_and_call_bound.2.2 exEnvBase 3 exStateBase
      ⟨[], [], ["m"], [], []⟩ (Request.str "x") "p" 10 false (by decide)

/-- C6 (corrected; the original claim's "an invocation with a different
promptId must always re-invoke the router" fails when such an invocation
stops before model selection, e.g. at the session-turn cap — see the
counterexample, where a different-promptId invocation performs no router
call at all). Amended claim: within one sequence the router is invoked at
most once — an invocation finding a sticky model pinned for its promptId
never invokes the router and keeps the pin for the whole recursive chain,
and any invocation adds at most one router call; an invocation with a
different promptId clears the sticky model at entry, and whenever it goes
on to perform a model call it first re-invokes the router. -/
theorem C6_sticky_routing_per_sequence :
    (∀ (env : Env) (fuel : Nat) (st : SessionState) (orc : Oracle) (req : Request)
        (pid : String) (turns : Int) (retry : Bool) (m : String),
        st.lastPromptId = pid → st.currentSequenceModel = some m →
        ((sendMessageStream env fuel st orc req pid turns retry).st.routerCallCount
            = st.routerCallCount
          ∧ (sendMessageStream env fuel st orc req pid turns retry).st.currentSequenceModel
            = some m))
    ∧ (∀ (env : Env) (fuel : Nat) (st : SessionState) (orc : Oracle) (req : Request)
        (pid : String) (turns : Int) (retry : Bool),
        (sendMessageStream env fuel st orc req pid turns retry).st.routerCallCount
          ≤ st.routerCallCount
            + (if st.lastPromptId = pid ∧ st.currentSequenceModel.isSome = true
               then 0 else 1))
    ∧ (∀ (st : SessionState) (pid : String), st.lastPromptId ≠ pid →
        (resetSequenceIfNeeded st pid).currentSequenceModel = none)
    ∧ (∀ (env : Env) (fuel : Nat) (st : SessionState) (orc : Oracle) (req : Request)
        (pid : String) (turns : Int) (retry : Bool),
        st.lastPromptId ≠ pid →
        st.modelCallCount
          < (sendMessageStream env fuel st orc req pid turns retry).st.modelCallCount →
        st.routerCallCount
          < (sendMessageStream env fuel st orc req pid turns retry).st.routerCallCount) := by
  refine ⟨?_, ?_, resetSequence_diff, ?_⟩
  · intro env fuel st orc req pid turns retry m h1 h2
    obtain ⟨a, b, c⟩ := sendMessageStream_sticky env fuel st orc req pid turns retry m h2 h1
    exact ⟨c, a⟩
  · intro env fuel st orc req pid turns retry
    by_cases h : st.lastPromptId = pid ∧ st.currentSequenceModel.isSome = true
    · rw [if_pos h]
      obtain ⟨m, hm⟩ := Option.isSome_iff_exists.mp h.2
      obtain ⟨-, -, c⟩ := sendMessageStream_sticky env fuel st orc req pid turns retry m
        hm h.1
      omega
    · rw [if_neg h]
      refine sendMessageStream_router_once env fuel st orc req pid turns retry ?_
      by_cases hp : st.lastPromptId = pid
      · right
        rcases Option.eq_none_or_eq_some st.currentSequenceModel with hn | ⟨m, hm⟩
        · exact hn
        · exact absurd ⟨hp, by rw [hm]; rfl⟩ h
      · left; exact hp
  · intro env fuel st orc req pid turns retry hpid hcall
    cases fuel with
    | zero => simp [sendMessageStream] at hcall
    | succ f =>
      rw [sendMessageStream_succ] at hcall ⊢
      exact sendBody_router_on_call _ env st orc req pid turns retry
        (fun st1 orc1 req1 r1 =>
          sendMessageStream_router_le env f st1 orc1 req1 pid (boundedTurnsOf turns - 1) r1)
        (entryState_sticky_none st pid (Or.inl hpid)) hcall

theorem C6_counterexample :
    ("a" : String) ≠ "b"
    ∧ (sendMessageStream { exEnvBase with maxSessionTurns := 1 } 3
        { exStateBase with lastPromptId := "a", sessionTurnCount := 5 }
        ⟨[], [], ["m"], [], []⟩ (Request.str "x") "b" 10 false).events
      = [SEvent.maxSessionTurns]
    ∧ (sendMessageStream { exEnvBase with maxSessionTurns := 1 } 3
        { exStateBase with lastPromptId := "a", sessionTurnCount := 5 }
        ⟨[], [], ["m"], [], []⟩ (Request.str "x") "b" 10 false).st.routerCallCount
      = 0 := by
  refine ⟨by decide, by decide, by decide⟩

theorem C6_witness :
    ((sendMessageStream exEnvBase 3
        { exStateBase with currentSequenceModel := some "m0" }
        ⟨[], [], ["m1"], [], []⟩ (Request.str "x") "p" 10 false).st.routerCallCount
      = ({ exStateBase with currentSequenceModel := some "m0"
            } : SessionState).routerCallCount
      ∧ (sendMessageStream exEnvBase 3
          { exStateBase with currentSequenceModel := some "m0" }
          ⟨[], [], ["m1"], [], []⟩ (Request.str "x") "p" 10 false).st.currentSequenceModel
        = some "m0")
    ∧ (sendMessageStream exEnvBase 3 exStateBase ⟨[], [], ["m1"], [], []⟩
        (Request.str "x") "p" 10 false).st.routerCallCount
      ≤ exStateBase.routerCallCount + 1
    ∧ (resetSequenceIfNeeded { exStateBase with
        currentSequenceModel := some "m0"
        lastPromptId := "a" } "b").currentSequenceModel = none
    ∧ ({ exStateBase with lastPromptId := "a" } : SessionState).modelCallCount
        < (sendMessageStream exEnvBase 3 { exStateBase with lastPromptId := "a" }
            ⟨[], [], ["m1"], [], []⟩ (Request.str "x") "b" 10 false).st.modelCallCount
    ∧ ({ exStateBase with lastPromptId := "a" } : SessionState).routerCallCount
        < (sendMessageStream exEnvBase 3 { exStateBase with lastPromptId := "a" }
            ⟨[], [], ["m1"], [], []⟩ (Request.str "x") "b" 10 false).st.routerCallCount := by
  refine ⟨?_, ?_, ?_, ?_⟩
  · exact C6_sticky_routing_per_sequence.1 exEnvBase 3
      { exStateBase with currentSequenceModel := some "m0" }
      ⟨[], [], ["m1"], [], []⟩ (Request.str "x") "p" 10 false "m0" (by decide) (by decide)
  · have h := C6_sticky_routing_per_sequence.2.1 exEnvBase 3 exStateBase
      ⟨[], [], ["m1"], [], []⟩ (Request.str "x") "p" 10 false
    simpa using h
  · exact C6_sticky_routing_per_sequence.2.2.1
      { exStateBase with
        currentSequenceModel := some "m0"
        lastPromptId := "a" } "b"
      (by decide)
  · refine ⟨by decide, ?_⟩
    exact C6_sticky_routing_per_sequence.2.2.2 exEnvBase 3
      { exStateBase with lastPromptId := "a" } ⟨[], [], ["m1"], [], []⟩
      (Request.str "x") "b" 10 false (by decide) (by decide)

end GeminiClient
